import Mathlib

/-!
Shallow embedding of the aeternitas-cli ingestion/revisioning core
(`src/aeternitas/index/ingest/ingest.py`, `parse/diary.py`, `parse/receipt.py`,
`timeline/build.py`, `cli.py`, `common/text.py`, `common/timeutil.py`,
`db/schema.py`) and proofs about it.

Python strings are modelled as Lean `String` (lists of `Char`); the regular
expressions of the source are compiled by hand into deterministic scanners,
with backtracking unfolded exactly where the original pattern needs it.
SQLite tables are modelled as Lean lists of rows; `INTEGER PRIMARY KEY`
row ids are `max id + 1` as in SQLite for tables whose rows are never
deleted.  Newlines in modelled texts are `\n` (the texts the program
produces and the spec's examples use no other line separator).
-/

namespace Aeternitas

/-! ## Python string primitives (`common/text.py` and `str` methods) -/

/-- Characters accepted by `str.strip()` / regex `\s` (the ASCII whitespace
set plus the separators Python additionally treats as space that can occur
in the modelled texts). -/
def isPySpace (c : Char) : Bool :=
  c = ' ' || c = '\t' || c = '\n' || c = '\r' || c = '\x0b' || c = '\x0c' ||
  c = '\x1c' || c = '\x1d' || c = '\x1e' || c = '\x1f' || c = '\u0085' || c = '\u00A0'

def isDigitCh (c : Char) : Bool := '0' ≤ c && c ≤ '9'

def digitVal (c : Char) : Nat := c.toNat - '0'.toNat

/-- `\w` for the character repertoire of this program: ASCII alphanumerics,
underscore, and the Finnish letters that occur in the source's patterns. -/
def isWordCh (c : Char) : Bool :=
  ('a' ≤ c && c ≤ 'z') || ('A' ≤ c && c ≤ 'Z') || isDigitCh c || c = '_' ||
  c = 'ä' || c = 'ö' || c = 'å' || c = 'Ä' || c = 'Ö' || c = 'Å'

/-- `str.lower()` on the repertoire used here (ASCII plus Ä/Ö/Å). -/
def pyLowerCh (c : Char) : Char :=
  if c = 'Ä' then 'ä' else if c = 'Ö' then 'ö' else if c = 'Å' then 'å' else c.toLower

def pyLowerStr (s : String) : String := String.mk (s.data.map pyLowerCh)

def pyStripList (l : List Char) : List Char :=
  ((l.dropWhile isPySpace).reverse.dropWhile isPySpace).reverse

/-- `str.strip()`. -/
def pyStrip (s : String) : String := String.mk (pyStripList s.data)

/-- `re.sub(r"[ \t]+", " ", s)`: collapse every run of spaces/tabs to one space. -/
def collapseAux : Bool → List Char → List Char
  | _, [] => []
  | prevSp, c :: rest =>
    if c = ' ' || c = '\t' then
      if prevSp then collapseAux true rest else ' ' :: collapseAux true rest
    else c :: collapseAux false rest

def collapseSpaces (l : List Char) : List Char := collapseAux false l

/-- `normalize_ws` from `common/text.py`: collapse space/tab runs, then strip. -/
def normalize_ws (s : String) : String :=
  pyStrip (String.mk (collapseSpaces s.data))

/-- Split a character list at newlines (`str.split("\n")` pieces). -/
def splitNl : List Char → List (List Char)
  | [] => [[]]
  | c :: rest =>
    if c = '\n' then [] :: splitNl rest
    else
      match splitNl rest with
      | [] => [[c]]
      | h :: t => (c :: h) :: t

/-- `str.splitlines()` for `\n`-separated text. -/
def pySplitlines (s : String) : List String :=
  if s.data = [] then []
  else
    let parts := (splitNl s.data).map String.mk
    if s.data.getLast? = some '\n' then parts.dropLast else parts

/-- `"\n".join(pieces)` on the underlying character lists. -/
def joinNlCh : List (List Char) → List Char
  | [] => []
  | [l] => l
  | l :: rest => l ++ '\n' :: joinNlCh rest

def joinNl (ls : List String) : String := String.mk (joinNlCh (ls.map String.data))

/-- Python string slicing `s[:n]` (by characters). -/
def strTake (s : String) (n : Nat) : String := String.mk (s.data.take n)

/-- Substring containment, `needle in hay` on Python strings. -/
def scanContains (nd : List Char) : List Char → Bool
  | [] => nd.isEmpty
  | c :: rest => nd.isPrefixOf (c :: rest) || scanContains nd rest

def strContains (hay needle : String) : Bool := scanContains needle.data hay.data

/-- Split a character list at slashes. -/
def splitSlash : List Char → List (List Char)
  | [] => [[]]
  | c :: rest =>
    if c = '/' then [] :: splitSlash rest
    else
      match splitSlash rest with
      | [] => [[c]]
      | h :: t => (c :: h) :: t

/-- `Path(p).name`: the final path component (for the ordinary relative
names and file names this program produces). -/
def pyPathName (p : String) : String :=
  String.mk ((((splitSlash p.data).filter (fun x => ¬ x.isEmpty)).getLastD []))

def digitChar : Nat → Char
  | 0 => '0' | 1 => '1' | 2 => '2' | 3 => '3' | 4 => '4'
  | 5 => '5' | 6 => '6' | 7 => '7' | 8 => '8' | 9 => '9'
  | _ => '*'

/-- Decimal digits of `n` (fuel-bounded structural recursion; `20` digits
cover every number this program prints). -/
def natDigits : Nat → Nat → List Char
  | 0, _ => []
  | fuel + 1, n =>
    if n < 10 then [digitChar n]
    else natDigits fuel (n / 10) ++ [digitChar (n % 10)]

def natToStr (n : Nat) : String := String.mk (natDigits 20 n)

/-- `f"{n:02d}"`. -/
def pad2 (n : Nat) : String := if n < 10 then "0" ++ natToStr n else natToStr n

/-- `f"{n:04d}"`. -/
def pad4 (n : Nat) : String :=
  if n < 10 then "000" ++ natToStr n
  else if n < 100 then "00" ++ natToStr n
  else if n < 1000 then "0" ++ natToStr n
  else natToStr n

/-! ## Dates (`datetime.date`) -/

structure PyDate where
  year : Nat
  month : Nat
  day : Nat
deriving Repr, DecidableEq

def isLeap (y : Nat) : Bool := (y % 4 = 0 && y % 100 ≠ 0) || y % 400 = 0

def daysInMonth (y m : Nat) : Nat :=
  if m = 2 then (if isLeap y then 29 else 28)
  else if m = 4 || m = 6 || m = 9 || m = 11 then 30
  else 31

/-- `datetime.date(y, m, d)` succeeds exactly on these inputs. -/
def dateValid (y m d : Nat) : Bool :=
  1 ≤ y && y ≤ 9999 && 1 ≤ m && m ≤ 12 && 1 ≤ d && d ≤ daysInMonth y m

/-- `date.isoformat()` (`iso_date` in `common/timeutil.py`). -/
def isoDate (d : PyDate) : String :=
  pad4 d.year ++ "-" ++ pad2 d.month ++ "-" ++ pad2 d.day

/-- `infer_year_from_path` from `common/text.py`: first `(19|20)\d{2}`
match in `path.name`. -/
def yearAt : List Char → Option Nat
  | a :: b :: c :: d :: _ =>
    if ((a = '1' && b = '9') || (a = '2' && b = '0')) && isDigitCh c && isDigitCh d then
      some (digitVal a * 1000 + digitVal b * 100 + digitVal c * 10 + digitVal d)
    else none
  | _ => none

def scanYear : List Char → Option Nat
  | [] => none
  | c :: rest =>
    match yearAt (c :: rest) with
    | some y => some y
    | none => scanYear rest

def infer_year_from_path (p : String) : Option Nat := scanYear (pyPathName p).data

/-! ## Diary segmenter (`parse/diary.py`)

`DATE_LINE_RE = ^(?:WD\s+)?(\d{1,2})\.(\d{1,2})\.(?:\s*(\d{4}))?\s*\.?\s*$`
where `WD` is a fixed list of two-letter Finnish weekday abbreviations.
The scanner below realises the pattern's backtracking deterministically:
`(\d{1,2})\.` can only match a one- or two-digit run directly followed by
a dot, the optional year group is tried first and dropped if the tail then
fails, and the optional weekday prefix only matches when followed by
whitespace (a line starting with letters can never match otherwise). -/

/-- `(\d{1,2})\.`: up to two digits, greedy, followed by a literal dot. -/
def matchNumDot : List Char → Option (Nat × List Char)
  | a :: b :: rest =>
    if isDigitCh a then
      if isDigitCh b then
        match rest with
        | '.' :: rest2 => some (digitVal a * 10 + digitVal b, rest2)
        | _ => none
      else if b = '.' then some (digitVal a, rest)
      else none
    else none
  | _ => none

/-- `\s*\.?\s*$`. -/
def matchTailNoYear (l : List Char) : Bool :=
  let l1 := l.dropWhile isPySpace
  let l2 := match l1 with
    | '.' :: r => r
    | _ => l1
  (l2.dropWhile isPySpace).isEmpty

/-- `(?:\s*(\d{4}))?\s*\.?\s*$`: greedy optional year group with fallback. -/
def matchYearTail (l : List Char) : Option (Option Nat) :=
  let l1 := l.dropWhile isPySpace
  let withYear : Option (Option Nat) :=
    match l1 with
    | a :: b :: c :: d :: rest =>
      if isDigitCh a && isDigitCh b && isDigitCh c && isDigitCh d && matchTailNoYear rest then
        some (some (digitVal a * 1000 + digitVal b * 100 + digitVal c * 10 + digitVal d))
      else none
    | _ => none
  match withYear with
  | some y => some y
  | none => if matchTailNoYear l then some none else none

def weekdayAbbrevs : List (List Char) :=
  [['m','a'], ['t','i'], ['k','e'], ['t','o'], ['p','e'], ['l','a'], ['s','u'],
   ['M','a'], ['T','i'], ['K','e'], ['T','o'], ['P','e'], ['L','a'], ['S','u']]

/-- `(?:WD\s+)?`: consume a weekday abbreviation plus whitespace if present. -/
def stripWeekday (l : List Char) : List Char :=
  match l with
  | a :: b :: rest =>
    if weekdayAbbrevs.contains [a, b] && (rest.headD ' ' |> isPySpace) && rest ≠ [] then
      rest.dropWhile isPySpace
    else l
  | _ => l

/-- `DATE_LINE_RE.match(line.strip())`, returning `(day, month, year?)`. -/
def matchDateLine (line : String) : Option (Nat × Nat × Option Nat) :=
  let l := stripWeekday (pyStripList line.data)
  match matchNumDot l with
  | some (d, l2) =>
    match matchNumDot l2 with
    | some (mo, l3) => (matchYearTail l3).map (fun y => (d, mo, y))
    | none => none
  | none => none

structure DiaryEntry where
  date : PyDate
  title : String
  body : String
deriving Repr, DecidableEq

structure DiaryState where
  curDate : Option PyDate
  curLines : List String
  entries : List DiaryEntry
deriving Repr, DecidableEq

/-- The inner `flush()` of `parse_diary_entries`. -/
def diaryFlush (st : DiaryState) : DiaryState :=
  match st.curDate with
  | none => st
  | some d =>
    let body := pyStrip (joinNl st.curLines)
    let title :=
      if body ≠ "" then normalize_ws ((pySplitlines body).headD "")
      else "Merkintä " ++ isoDate d
    { st with entries := st.entries ++ [⟨d, strTake title 160, body⟩], curLines := [] }

/-- Year resolution for a date token without a year: the caller-supplied
default year, else the current processing year (`dt.date.today().year`). -/
def resolveYear (yOpt : Option Nat) (defaultYear : Option Nat) (todayYear : Nat) : Nat :=
  match yOpt with
  | some y => y
  | none =>
    match defaultYear with
    | some dy => dy
    | none => todayYear

/-- One iteration of the `for line in lines` loop of `parse_diary_entries`. -/
def diaryStep (defaultYear : Option Nat) (todayYear : Nat) (st : DiaryState) (line : String) :
    DiaryState :=
  match matchDateLine line with
  | some (d, mo, yOpt) =>
    let st1 := diaryFlush st
    let y := resolveYear yOpt defaultYear todayYear
    { st1 with curDate := if dateValid y mo d then some ⟨y, mo, d⟩ else none }
  | none =>
    if st.curDate.isSome then { st with curLines := st.curLines ++ [line] } else st

/-- `parse_diary_entries(text, default_year)`; `todayYear` models
`dt.date.today().year`, read only when `default_year` is `None`. -/
def parse_diary_entries (text : String) (defaultYear : Option Nat) (todayYear : Nat) :
    List DiaryEntry :=
  (diaryFlush ((pySplitlines text).foldl (diaryStep defaultYear todayYear) ⟨none, [], []⟩)).entries

/-! ## Receipt field extractor (`parse/receipt.py`) -/

/-- Case-insensitively strip a (lower-case) keyword from the front of a
character list, returning the remainder. -/
def ciStrip : List Char → List Char → Option (List Char)
  | [], l => some l
  | _ :: _, [] => none
  | k :: ks, c :: cs => if pyLowerCh c = k then ciStrip ks cs else none

/-- `([0-9]+[,.][0-9]{2})`: a maximal digit run, a comma or dot, two
digits.  (The greedy `[0-9]+` has no other viable split: shortening it
would put a digit where `[,.]` must match.)  Returns the matched amount
and the remainder. -/
def parseAmount (l : List Char) : Option (List Char × List Char) :=
  let ds := l.takeWhile isDigitCh
  if ds.isEmpty then none
  else
    match l.drop ds.length with
    | sep :: a :: b :: rest =>
      if (sep = ',' || sep = '.') && isDigitCh a && isDigitCh b then
        some (ds ++ [sep, a, b], rest)
      else none
    | _ => none

/-- `\b` to the right of a word character: next char absent or non-word. -/
def boundaryAfter : List Char → Bool
  | [] => true
  | c :: _ => !isWordCh c

/-- `\s+` then an amount: used after the payable/total keywords. -/
def wsAmount (l : List Char) : Option (List Char) :=
  let ws := l.takeWhile isPySpace
  if ws.isEmpty then none
  else (parseAmount (l.drop ws.length)).map (fun p => p.1)

/-- `Maksettava\s+([0-9]+[,.][0-9]{2})` (IGNORECASE) at this position. -/
def maksAt (l : List Char) : Option (List Char) :=
  ciStrip ['m','a','k','s','e','t','t','a','v','a'] l |>.bind wsAmount

/-- `re.search` scan for the payable-keyword amount. -/
def searchMaks : List Char → Option (List Char)
  | [] => none
  | c :: rest =>
    match maksAt (c :: rest) with
    | some a => some a
    | none => searchMaks rest

/-- Consume exactly `k` characters, none of which may be a newline
(the regex `.` with DOTALL off). -/
def matchDotK : List Char → Nat → Option (List Char)
  | l, 0 => some l
  | [], _ + 1 => none
  | c :: rest, k + 1 => if c = '\n' then none else matchDotK rest k

/-- `.{0,20}\s+amount`, greedy: try 20 consumed characters first, then
backtrack down to 0. -/
def yhtDots : Nat → List Char → Option (List Char)
  | 0, l => (matchDotK l 0).bind wsAmount
  | k + 1, l =>
    match (matchDotK l (k + 1)).bind wsAmount with
    | some a => some a
    | none => yhtDots k l

/-- `Yhteens[aä].{0,20}\s+([0-9]+[,.][0-9]{2})` (IGNORECASE) at this position. -/
def yhtAt (l : List Char) : Option (List Char) :=
  match ciStrip ['y','h','t','e','e','n','s'] l with
  | some (c :: r2) =>
    if pyLowerCh c = 'a' || pyLowerCh c = 'ä' then yhtDots 20 r2 else none
  | _ => none

def searchYht : List Char → Option (List Char)
  | [] => none
  | c :: rest =>
    match yhtAt (c :: rest) with
    | some a => some a
    | none => searchYht rest

/-- `\b([0-9]+[,.][0-9]{2})\s*(?:EUR|e)\b` at this position (the leading
`\b` is checked by the caller).  Returns the amount, the last character
the match consumed, and the remainder. -/
def eurMatchAt (l : List Char) : Option (List Char × Char × List Char) :=
  match parseAmount l with
  | none => none
  | some (amt, rest) =>
    let rest2 := rest.dropWhile isPySpace
    match rest2 with
    | c1 :: c2 :: c3 :: r3 =>
      if pyLowerCh c1 = 'e' && pyLowerCh c2 = 'u' && pyLowerCh c3 = 'r' && boundaryAfter r3 then
        some (amt, c3, r3)
      else if pyLowerCh c1 = 'e' && boundaryAfter (c2 :: c3 :: r3) then
        some (amt, c1, c2 :: c3 :: r3)
      else none
    | c1 :: rest3 =>
      if pyLowerCh c1 = 'e' && boundaryAfter rest3 then some (amt, c1, rest3) else none
    | [] => none

/-- `re.findall` of the currency-marked amounts, non-overlapping, tracking
the previous character for the leading `\b` (the fuel starts at the list
length, enough for a scan that always consumes at least one character). -/
def eurFindAllAux : Nat → Option Char → List Char → List (List Char)
  | 0, _, _ => []
  | _ + 1, _, [] => []
  | fuel + 1, prev, c :: rest =>
    if prev.all (fun p => !isWordCh p) then
      match eurMatchAt (c :: rest) with
      | some (amt, lastCh, rest2) => amt :: eurFindAllAux fuel (some lastCh) rest2
      | none => eurFindAllAux fuel (some c) rest
    else eurFindAllAux fuel (some c) rest

def eurFindAll (l : List Char) : List (List Char) := eurFindAllAux l.length none l

def commaDotCh (c : Char) : Char := if c = ',' then '.' else c

/-- `.replace(",", ".")` applied to a matched amount. -/
def amountStr (a : List Char) : String := String.mk (a.map commaDotCh)

/-- The total-extraction chain of `parse_receipt_fields`: payable keyword
first, then total keyword, then the last currency-marked amount. -/
def receiptTotal (joined : String) : Option String :=
  match searchMaks joined.data with
  | some a => some (amountStr a)
  | none =>
    match searchYht joined.data with
    | some a => some (amountStr a)
    | none => (eurFindAll joined.data).getLast?.map amountStr

/-- `\b(\d{1,2})\.(\d{1,2})\.(\d{4})\b` at this position (leading `\b`
checked by the caller). -/
def dateTokenAt (l : List Char) : Option (Nat × Nat × Nat) :=
  match matchNumDot l with
  | none => none
  | some (d, l2) =>
    match matchNumDot l2 with
    | none => none
    | some (mo, l3) =>
      match l3 with
      | a :: b :: c :: e :: rest =>
        if isDigitCh a && isDigitCh b && isDigitCh c && isDigitCh e && boundaryAfter rest then
          some (d, mo, digitVal a * 1000 + digitVal b * 100 + digitVal c * 10 + digitVal e)
        else none
      | _ => none

def searchDateToken : Option Char → List Char → Option (Nat × Nat × Nat)
  | _, [] => none
  | prev, c :: rest =>
    if prev.all (fun p => !isWordCh p) then
      match dateTokenAt (c :: rest) with
      | some r => some r
      | none => searchDateToken (some c) rest
    else searchDateToken (some c) rest

/-- The date field of `parse_receipt_fields`: first `D.M.YYYY` token,
dropped if not a valid calendar date. -/
def receiptDate (joined : String) : Option String :=
  match searchDateToken none joined.data with
  | some (d, mo, y) => if dateValid y mo d then some (isoDate ⟨y, mo, d⟩) else none
  | none => none

/-- `\b(alt|…)\b` (IGNORECASE) word search, for keyword filters. -/
def wordAltAt (alts : List (List Char)) (l : List Char) : Bool :=
  alts.any (fun kw =>
    match ciStrip kw l with
    | some rest => boundaryAfter rest
    | none => false)

def searchWordAltsAux (alts : List (List Char)) : Option Char → List Char → Bool
  | _, [] => false
  | prev, c :: rest =>
    (prev.all (fun p => !isWordCh p) && wordAltAt alts (c :: rest)) ||
      searchWordAltsAux alts (some c) rest

def searchWordAlts (alts : List (List Char)) (s : String) : Bool :=
  searchWordAltsAux alts none s.data

def companyKws : List (List Char) := [['o','y','j'], ['o','y'], ['a','b'], ['l','t','d'], ['i','n','c']]

def totalsKws : List (List Char) :=
  [['m','a','k','s','e','t','t','a','v','a'], ['y','h','t','e','e','n','s'],
   ['a','l','e','n','n','u','s'], ['v','e','r','o','t','o','n'], ['v','e','r','o'], ['a','l','v']]

def addrKws : List (List Char) :=
  [['t','u','r','k','u'], ['h','e','l','s','i','n','k','i'], ['p','u','h'], ['w','w','w']]

/-- `[A-ZÅÄÖ0-9]`. -/
def isUpperCls1 (c : Char) : Bool :=
  ('A' ≤ c && c ≤ 'Z') || c = 'Å' || c = 'Ä' || c = 'Ö' || isDigitCh c

/-- `[A-ZÅÄÖ0-9 \-\/]`. -/
def isUpperCls2 (c : Char) : Bool := isUpperCls1 c || c = ' ' || c = '-' || c = '/'

/-- `\s+([0-9]+[,.][0-9]{2})\b` for the item pattern. -/
def itemAmount (l : List Char) : Option (List Char) :=
  let ws := l.takeWhile isPySpace
  if ws.isEmpty then none
  else
    match parseAmount (l.drop ws.length) with
    | some (amt, rem) => if boundaryAfter rem then some amt else none
    | none => none

/-- Backtracking over the greedy class-run length `k` (from maximal down
to 2), group 1 being `c0` plus the first `k` characters of `rest`. -/
def itemTryLen (c0 : Char) (rest : List Char) : Nat → Option (List Char × List Char)
  | 0 => none
  | 1 => none
  | k + 2 =>
    match itemAmount (rest.drop (k + 2)) with
    | some amt => some (c0 :: rest.take (k + 2), amt)
    | none => itemTryLen c0 rest (k + 1)

/-- `re.search(r"^([A-ZÅÄÖ0-9][A-ZÅÄÖ0-9 \-\/]{2,})\s+([0-9]+[,.][0-9]{2})\b", ln)`. -/
def itemMatch (ln : List Char) : Option (List Char × List Char) :=
  match ln with
  | [] => none
  | c0 :: rest =>
    if isUpperCls1 c0 then itemTryLen c0 rest (rest.takeWhile isUpperCls2).length
    else none

structure ReceiptFields where
  merchant : Option String
  date : Option String
  total : Option String
  items : List (String × String)
  rawLines : List String
deriving Repr, DecidableEq

/-- The whitespace-normalized, non-empty lines of the receipt text
(`replace nbsp`, `re.sub("[ \t]+", " ")`, `splitlines`, `normalize_ws`,
drop falsy). -/
def receiptLines (text : String) : List String :=
  let t := String.mk (collapseSpaces (text.data.map (fun c => if c = '\u00A0' then ' ' else c)))
  ((pySplitlines t).map normalize_ws).filter (fun x => x ≠ "")

def receiptMerchant (lines : List String) : Option String :=
  match (lines.take 10).find? (fun ln => searchWordAlts companyKws ln) with
  | some ln => some ln
  | none => lines.head?

def receiptItems (lines : List String) : List (String × String) :=
  (lines.filterMap (fun ln =>
    if searchWordAlts totalsKws ln then none
    else
      match itemMatch ln.data with
      | some (g1, g2) =>
        let name := normalize_ws (String.mk g1)
        if searchWordAlts addrKws name then none
        else some (strTake name 120, String.mk (g2.map commaDotCh))
      | none => none)).take 30

/-- `parse_receipt_fields` from `parse/receipt.py`. -/
def parse_receipt_fields (text : String) : ReceiptFields :=
  let lines := receiptLines text
  let joined := joinNl lines
  { merchant := receiptMerchant lines
    date := receiptDate joined
    total := receiptTotal joined
    items := receiptItems lines
    rawLines := lines.take 200 }

/-! ## The revisioned store (`db/schema.py` tables as lists of rows) -/

/-- Row of the `source` table. -/
structure SourceRow where
  id : Nat
  uri : String
  sourceType : String
  scanRoot : Option String
  relPath : Option String
  mime : Option String
  currentRevisionId : Option Nat
  createdAt : String
deriving Repr, DecidableEq

/-- Row of the `revision` table. -/
structure RevisionRow where
  id : Nat
  sourceId : Nat
  observedAt : String
  size : Nat
  mtime : Int
  sha256 : Option String
  contentEncoding : String
  extractor : String
  extractorVersion : String
  status : String
  error : Option String
deriving Repr, DecidableEq

/-- The `json` blob stored with a doc (`extra_json`): the keys the program
writes and later reads back. -/
structure DocMeta where
  mime : Option String
  path : String
  relPath : String
  extractor : Option String
  receipt : Option ReceiptFields
  symlinkTarget : Option (Option String)
deriving Repr, DecidableEq

/-- Row of the `doc` table.  The `doc_fts` virtual table mirrors
`doc(title, text)` through the schema's insert/update/delete triggers;
since this program only ever inserts docs, its contents coincide with the
`doc` table and are not modelled separately. -/
structure DocRow where
  id : Nat
  revisionId : Nat
  title : String
  text : String
  meta : DocMeta
deriving Repr, DecidableEq

/-- Row of the `timeline` table. -/
structure TimelineRow where
  id : Nat
  docId : Nat
  date : String
  kind : String
  title : String
  snippet : String
  meta : Option ReceiptFields
deriving Repr, DecidableEq

structure Store where
  sources : List SourceRow
  revisions : List RevisionRow
  docs : List DocRow
  timeline : List TimelineRow
deriving Repr, DecidableEq

def maxSourceId (s : Store) : Nat := s.sources.foldr (fun r m => max r.id m) 0
def maxRevId (s : Store) : Nat := s.revisions.foldr (fun r m => max r.id m) 0
def maxDocId (s : Store) : Nat := s.docs.foldr (fun r m => max r.id m) 0

/-- SQLite's next `INTEGER PRIMARY KEY` for an append-only table. -/
def nextSourceId (s : Store) : Nat := maxSourceId s + 1
def nextRevId (s : Store) : Nat := maxRevId s + 1
def nextDocId (s : Store) : Nat := maxDocId s + 1

/-! ## Ingestion (`ingest/ingest.py`) -/

def EXTRACTOR_VERSION : String := "aet.py/1"

/-- The outcome of `extract_text(path)` (`extractors/text_extractors.py`):
either `(text, encoding, extractor_name)` or a raised exception with its
message.  The extractor implementations delegate to external libraries and
are outside the modelled core; only the outcome reaches `ingest_file`. -/
inductive ExtractOutcome where
  | ok (text enc extractor : String)
  | err (msg : String)
deriving Repr, DecidableEq

/-- What `ingest_file` observes about a path before touching the store:
`path.name`, `str(path)`, the computed `rel` (the `relative_to`/`name`
computation of lines 91-97, which is pure path arithmetic external to the
store), `mimetypes.guess_type`, `is_symlink`, whether `stat`/`lstat` and
the content read succeed, the stat fields, the content hash
(`sha256_file`), `os.readlink` (None when it raises `OSError`), and the
outcome of `extract_text`. -/
structure FileInfo where
  name : String
  pathStr : String
  relPath : String
  mime : Option String
  isSymlink : Bool
  statOk : Bool
  size : Nat
  mtime : Int
  sha : String
  linkTarget : Option String
  extractResult : ExtractOutcome
deriving Repr, DecidableEq

/-- The non-destructive `UPDATE source SET mime=COALESCE(?, mime), ...`
applied to the row with the found id. -/
def updSourceFields (rowId : Nat) (scanRoot relPath mime : Option String) (src : SourceRow) :
    SourceRow :=
  if src.id = rowId then
    { src with mime := mime <|> src.mime, scanRoot := scanRoot <|> src.scanRoot,
               relPath := relPath <|> src.relPath }
  else src

/-- `upsert_source`: find by uri; update MIME/root/rel-path with
`COALESCE(new, old)`, or insert a fresh row with no current revision. -/
def upsert_source (s : Store) (now uri sourceType : String)
    (scanRoot relPath mime : Option String) : Nat × Store :=
  match s.sources.find? (fun src => src.uri == uri) with
  | some row =>
    (row.id, { s with sources := s.sources.map (updSourceFields row.id scanRoot relPath mime) })
  | none =>
    let nid := nextSourceId s
    (nid,
      { s with sources := s.sources ++
          [{ id := nid, uri := uri, sourceType := sourceType, scanRoot := scanRoot,
             relPath := relPath, mime := mime, currentRevisionId := none, createdAt := now }] })

/-- `latest_revision`: the revision of this source with the greatest id
(`ORDER BY id DESC LIMIT 1`). -/
def latest_revision (s : Store) (sourceId : Nat) : Option RevisionRow :=
  (s.revisions.filter (fun r => r.sourceId == sourceId)).foldl
    (fun acc r =>
      match acc with
      | none => some r
      | some m => if m.id < r.id then some r else some m)
    none

/-- The revision row `add_revision_and_doc` inserts: `sha256` is the
given fingerprint, recomputed from the file when asked for and absent
(`sha256 or sha256_file(path)` under `compute_sha`). -/
def newRevision (s : Store) (f : FileInfo) (now : String) (sourceId : Nat)
    (encoding extractor status : String) (error sha256 : Option String) (computeSha : Bool) :
    RevisionRow :=
  { id := nextRevId s, sourceId := sourceId, observedAt := now, size := f.size, mtime := f.mtime,
    sha256 := if computeSha then (match sha256 with | some h => some h | none => some f.sha)
              else sha256,
    contentEncoding := encoding, extractor := extractor, extractorVersion := EXTRACTOR_VERSION,
    status := status, error := error }

/-- The doc row `add_revision_and_doc` inserts. -/
def newDoc (s : Store) (rid : Nat) (title text : String) (meta : DocMeta) : DocRow :=
  { id := nextDocId s, revisionId := rid, title := title, text := text, meta := meta }

/-- `UPDATE source SET current_revision_id=? WHERE id=?`. -/
def updCurrent (sourceId rid : Nat) (src : SourceRow) : SourceRow :=
  if src.id = sourceId then { src with currentRevisionId := some rid } else src

/-- `add_revision_and_doc`: append a revision, append its doc, and point
the source's `current_revision_id` at the new revision. -/
def add_revision_and_doc (s : Store) (f : FileInfo) (now : String) (sourceId : Nat)
    (title text encoding extractor : String) (meta : DocMeta)
    (status : String) (error : Option String) (sha256 : Option String) (computeSha : Bool) :
    Store :=
  { s with
    revisions := s.revisions ++
      [newRevision s f now sourceId encoding extractor status error sha256 computeSha],
    docs := s.docs ++ [newDoc s (nextRevId s) title text meta],
    sources := s.sources.map (updCurrent sourceId (nextRevId s)) }

/-- The uri built at line 99 of `ingest.py`. -/
def ingestUri (f : FileInfo) (scanRoot : Option String) : String :=
  match scanRoot with
  | some _ => "file://" ++ f.relPath
  | none => "file://" ++ f.pathStr

/-- The fingerprint passed around by `ingest_file`: none for symlinks. -/
def ingestSha (f : FileInfo) : Option String :=
  if f.isSymlink then none else some f.sha

/-- The change detector (lines 108-115 of `ingest.py`): skip only when a
latest revision exists, size and mtime match, the fingerprint does not
mismatch (in either direction of nullability), and its status is `ok`. -/
def change_detector_skip (latest : Option RevisionRow) (f : FileInfo) (sha : Option String) :
    Bool :=
  match latest with
  | none => false
  | some l =>
    if l.size = f.size && l.mtime = f.mtime then
      if sha.isSome && l.sha256 ≠ sha then false
      else if sha.isNone && l.sha256.isSome then false
      else l.status = "ok"
    else false

def symlinkMeta (f : FileInfo) : DocMeta :=
  { mime := f.mime, path := f.pathStr, relPath := f.relPath, extractor := none,
    receipt := none, symlinkTarget := some f.linkTarget }

def plainMeta (f : FileInfo) (extractor : String) : DocMeta :=
  { mime := f.mime, path := f.pathStr, relPath := f.relPath, extractor := some extractor,
    receipt := none, symlinkTarget := none }

def errorMeta (f : FileInfo) : DocMeta :=
  { mime := f.mime, path := f.pathStr, relPath := f.relPath, extractor := none,
    receipt := none, symlinkTarget := none }

/-- An option is Python-truthy when it holds a non-empty string. -/
def truthyOpt (o : Option String) : Bool :=
  match o with
  | some s => s ≠ ""
  | none => false

/-- `(19|20)\d{2}[-_.](\d{2})[-_.](\d{2})` at this position, yielding
`(year, month, day)`. -/
def fnDateAt (l : List Char) : Option (Nat × Nat × Nat) :=
  match l with
  | a :: b :: c :: d :: s1 :: m1 :: m2 :: s2 :: d1 :: d2 :: _ =>
    if ((a = '1' && b = '9') || (a = '2' && b = '0')) && isDigitCh c && isDigitCh d &&
       (s1 = '-' || s1 = '_' || s1 = '.') && isDigitCh m1 && isDigitCh m2 &&
       (s2 = '-' || s2 = '_' || s2 = '.') && isDigitCh d1 && isDigitCh d2 then
      some (digitVal a * 1000 + digitVal b * 100 + digitVal c * 10 + digitVal d,
            digitVal m1 * 10 + digitVal m2, digitVal d1 * 10 + digitVal d2)
    else none
  | _ => none

def scanFnDate : List Char → Option (Nat × Nat × Nat)
  | [] => none
  | c :: rest =>
    match fnDateAt (c :: rest) with
    | some r => some r
    | none => scanFnDate rest

/-- The filename date fallback of `ingest_file` (lines 146-153): search
`(19|20)\d{2}[-_.](\d{2})[-_.](\d{2})` in the file name and format the
numbers as `YYYY-MM-DD`, with no calendar validation. -/
def filename_date_fallback (name : String) : Option String :=
  (scanFnDate name.data).map (fun t => pad4 t.1 ++ "-" ++ pad2 t.2.1 ++ "-" ++ pad2 t.2.2)

/-- Patch the parsed receipt with the filename date when the parser found
no date (`not extra_json["receipt"].get("date")`). -/
def receiptMetaFix (rc : ReceiptFields) (name : String) : ReceiptFields :=
  if truthyOpt rc.date then rc
  else
    match filename_date_fallback name with
    | some ds => { rc with date := some ds }
    | none => rc

/-- Whether `ingest_file` treats the file as a receipt. -/
def looksLikeReceipt (f : FileInfo) (extractor : String) : Bool :=
  extractor = "pdf" || extractor = "ocr" || strContains (pyLowerStr f.name) "kuitti"

/-- The `extra_json` of the successful extraction branch. -/
def okMeta (f : FileInfo) (text extractor : String) : DocMeta :=
  if looksLikeReceipt f extractor then
    { plainMeta f extractor with receipt := some (receiptMetaFix (parse_receipt_fields text) f.name) }
  else plainMeta f extractor

/-- The three write branches of `ingest_file` (symlink pseudo-revision,
successful extraction, caught extraction/parsing exception). -/
def ingestWrite (s1 : Store) (sid : Nat) (f : FileInfo) (now : String) : Store :=
  if f.isSymlink then
    add_revision_and_doc s1 f now sid f.name "" "utf-8" "symlink" (symlinkMeta f)
      "ok" none none false
  else
    match f.extractResult with
    | .ok text enc extractor =>
      add_revision_and_doc s1 f now sid f.name text enc extractor (okMeta f text extractor)
        "ok" none (ingestSha f) true
    | .err msg =>
      add_revision_and_doc s1 f now sid f.name "" "utf-8" "error" (errorMeta f)
        "error" (some msg) (ingestSha f) true

/-- `ingest_file(con, path, scan_root)`.  A `stat`/`lstat`/content-read
failure raises out of the function (`Except.error`); everything after the
stat is total except the extraction, whose exception is caught inside. -/
def ingest_file (s : Store) (f : FileInfo) (scanRoot : Option String) (now : String) :
    Except Unit Store :=
  if f.statOk then
    let u := upsert_source s now (ingestUri f scanRoot) "file" scanRoot (some f.relPath) f.mime
    if change_detector_skip (latest_revision u.2 u.1) f (ingestSha f) then Except.ok u.2
    else Except.ok (ingestWrite u.2 u.1 f now)
  else Except.error ()

/-! ## Timeline rebuild (`timeline/build.py`) -/

/-- Option shown the way Python's f-string shows it (`None` for null):
`f"{receipt.get('merchant','')} total {receipt.get('total','')}"` gets
the stored value even when it is `None`. -/
def pyShowOpt (o : Option String) : String :=
  match o with
  | some s => s
  | none => "None"

/-- The SQL filter of `rebuild_timeline`: the doc's revision exists, has
status `ok`, and is some source's current revision. -/
def docIsCurrentOk (revs : List RevisionRow) (srcs : List SourceRow) (d : DocRow) : Bool :=
  revs.any (fun r => r.id = d.revisionId && r.status = "ok" &&
    srcs.any (fun src => src.currentRevisionId = some r.id))

/-- The timeline rows one doc contributes (`id` filled in afterwards). -/
def emitForDoc (todayYear : Nat) (d : DocRow) : List TimelineRow :=
  let diaryRows : List TimelineRow :=
    ((parse_diary_entries d.text (infer_year_from_path d.title) todayYear).take 2000).map
      (fun ent =>
        { id := 0, docId := d.id, date := isoDate ent.date, kind := "diary_entry",
          title := ent.title, snippet := normalize_ws (strTake ent.body 300), meta := none })
  match d.meta.receipt with
  | some rc =>
    if truthyOpt rc.date then
      [{ id := 0, docId := d.id, date := rc.date.getD "", kind := "receipt", title := d.title,
         snippet := strTake (pyShowOpt rc.merchant ++ " total " ++ pyShowOpt rc.total) 300,
         meta := some rc }]
    else diaryRows
  | none => diaryRows

/-- Sequential row ids for the freshly inserted timeline rows (after
`DELETE FROM timeline`, SQLite numbers new rows from 1 again). -/
def numberFrom : Nat → List TimelineRow → List TimelineRow
  | _, [] => []
  | n, e :: rest => { e with id := n } :: numberFrom (n + 1) rest

def computeTimeline (docs : List DocRow) (revs : List RevisionRow) (srcs : List SourceRow)
    (todayYear : Nat) : List TimelineRow :=
  numberFrom 1 ((docs.filter (docIsCurrentOk revs srcs)).flatMap (emitForDoc todayYear))

/-- `rebuild_timeline(con)`: clear the timeline and recompute it from the
docs of current `ok` revisions.  `todayYear` models `dt.date.today().year`
used by the diary segmenter's year fallback. -/
def rebuild_timeline (s : Store) (todayYear : Nat) : Store :=
  { s with timeline := computeTimeline s.docs s.revisions s.sources todayYear }

/-! ## The command layer (`cli.py`) -/

/-- The `with con:` body of `cmd_ingest`: ingest each path in order, then
rebuild the timeline; the first uncaught exception aborts the whole batch. -/
def ingest_batch (s : Store) (files : List FileInfo) (scanRoot : Option String) (now : String)
    (todayYear : Nat) : Except Unit Store :=
  match files with
  | [] => Except.ok (rebuild_timeline s todayYear)
  | f :: rest =>
    match ingest_file s f scanRoot now with
    | Except.ok s2 => ingest_batch s2 rest scanRoot now todayYear
    | Except.error e => Except.error e

/-- `cmd_ingest`: commit the batch, or roll the transaction back leaving
the store unchanged (the `Bool` reports success). -/
def cmd_ingest (s : Store) (files : List FileInfo) (scanRoot : Option String) (now : String)
    (todayYear : Nat) : Store × Bool :=
  match ingest_batch s files scanRoot now todayYear with
  | Except.ok s2 => (s2, true)
  | Except.error _ => (s, false)

/-- `cmd_search`: docs matching the query (the FTS5 `MATCH` is abstracted
as a predicate on title and text; `doc_fts` mirrors `doc` exactly, see
`DocRow`), restricted to docs whose revision is a source's current
revision with status `ok`, limited. -/
def cmd_search (s : Store) (q : String → String → Bool) (limit : Nat) : List DocRow :=
  (s.docs.filter (fun d => q d.title d.text && docIsCurrentOk s.revisions s.sources d)).take limit

/-! ## Store invariants -/

/-- Every source's current-revision pointer names one of that source's own
revisions whose id is maximal among them — i.e. the most recently written
revision, since revision ids grow strictly with each write. -/
def CurrentIsLatest (s : Store) : Prop :=
  ∀ src ∈ s.sources, ∀ r ∈ s.revisions, r.sourceId = src.id →
    ∃ rc ∈ s.revisions, rc.sourceId = src.id ∧ src.currentRevisionId = some rc.id ∧ r.id ≤ rc.id

/-- Every revision belongs to an existing source. -/
def RevSourcesExist (s : Store) : Prop :=
  ∀ r ∈ s.revisions, ∃ src ∈ s.sources, src.id = r.sourceId

def StoreInv (s : Store) : Prop := CurrentIsLatest s ∧ RevSourcesExist s

/-! ## Concrete example inputs used by the witnesses -/

def exStore0 : Store := { sources := [], revisions := [], docs := [], timeline := [] }

def exFile : FileInfo :=
  { name := "diary-2020.txt", pathStr := "/data/diary-2020.txt", relPath := "diary-2020.txt",
    mime := some "text/plain", isSymlink := false, statOk := true, size := 33, mtime := 100,
    sha := "abc123", linkTarget := none,
    extractResult := ExtractOutcome.ok "12.3.2020.\nHello\nWorld\n14.3.\nNext" "utf-8" "txt" }

def exStore1 : Store :=
  match ingest_file exStore0 exFile none "T1" with
  | Except.ok s => s
  | Except.error _ => exStore0

def exBadFile : FileInfo :=
  { exFile with
    name := "gone.txt", pathStr := "/data/gone.txt", relPath := "gone.txt",
    statOk := false }

def exErrFile : FileInfo :=
  { exFile with
    name := "broken.pdf", pathStr := "/data/broken.pdf", relPath := "broken.pdf",
    extractResult := ExtractOutcome.err "pypdf puuttuu (pip install pypdf)" }

def exLinkFile : FileInfo :=
  { name := "ln", pathStr := "/data/ln", relPath := "ln", mime := none, isSymlink := true,
    statOk := true, size := 3, mtime := 7, sha := "unused", linkTarget := some "/target",
    extractResult := ExtractOutcome.err "never invoked" }

def exKuittiFile : FileInfo :=
  { name := "kuitti-2020-13-45.jpg", pathStr := "/data/kuitti-2020-13-45.jpg",
    relPath := "kuitti-2020-13-45.jpg", mime := some "image/jpeg", isSymlink := false,
    statOk := true, size := 10, mtime := 5, sha := "h2", linkTarget := none,
    extractResult := ExtractOutcome.ok "no date here" "utf-8" "ocr" }

/-- The first timeline row produced by rebuilding after ingesting `exFile`. -/
def exEntry : TimelineRow :=
  { id := 1, docId := 1, date := "2020-03-12", kind := "diary_entry", title := "Hello",
    snippet := "Hello\nWorld", meta := none }

/-- The doc row written by ingesting `exFile` into the empty store. -/
def exDoc1 : DocRow :=
  { id := 1, revisionId := 1, title := "diary-2020.txt",
    text := "12.3.2020.\nHello\nWorld\n14.3.\nNext",
    meta := { mime := some "text/plain", path := "/data/diary-2020.txt",
              relPath := "diary-2020.txt", extractor := some "txt", receipt := none,
              symlinkTarget := none } }

/-- A concrete full-text match predicate (title equality). -/
def exQuery : String → String → Bool := fun t _ => t == "diary-2020.txt"

/-- The fresh row `upsert_source` inserts for an unseen uri. -/
def freshSource (s : Store) (now uri sourceType : String) (scanRoot relPath mime : Option String) :
    SourceRow :=
  { id := nextSourceId s, uri := uri, sourceType := sourceType, scanRoot := scanRoot,
    relPath := relPath, mime := mime, currentRevisionId := none, createdAt := now }

/-! ## Infrastructure lemmas -/

theorem mem_le_foldr_max {α : Type} (f : α → Nat) {l : List α} {a : α} (h : a ∈ l) :
    f a ≤ l.foldr (fun r m => max (f r) m) 0 := by
  induction l with
  | nil => exact absurd h (List.not_mem_nil a)
  | cons b t ih =>
    rcases List.mem_cons.mp h with h1 | h2
    · subst h1; exact Nat.le_max_left _ _
    · exact Nat.le_trans (ih h2) (Nat.le_max_right _ _)

theorem sourceId_lt_next {s : Store} {src : SourceRow} (h : src ∈ s.sources) :
    src.id < nextSourceId s :=
  Nat.lt_succ_of_le (mem_le_foldr_max (fun r => r.id) h)

theorem revId_lt_next {s : Store} {r : RevisionRow} (h : r ∈ s.revisions) :
    r.id < nextRevId s :=
  Nat.lt_succ_of_le (mem_le_foldr_max (fun r => r.id) h)

theorem docId_lt_next {s : Store} {d : DocRow} (h : d ∈ s.docs) :
    d.id < nextDocId s :=
  Nat.lt_succ_of_le (mem_le_foldr_max (fun r => r.id) h)

theorem upsert_revisions (s : Store) (now uri t : String) (sr rp mi : Option String) :
    ((upsert_source s now uri t sr rp mi).2).revisions = s.revisions := by
  unfold upsert_source
  cases s.sources.find? (fun src => src.uri == uri) <;> rfl

theorem upsert_docs (s : Store) (now uri t : String) (sr rp mi : Option String) :
    ((upsert_source s now uri t sr rp mi).2).docs = s.docs := by
  unfold upsert_source
  cases s.sources.find? (fun src => src.uri == uri) <;> rfl

theorem upsert_fresh {s : Store} {uri : String} (now t : String) (sr rp mi : Option String)
    (h : ∀ src ∈ s.sources, src.uri ≠ uri) :
    upsert_source s now uri t sr rp mi =
      (nextSourceId s, { s with sources := s.sources ++ [freshSource s now uri t sr rp mi] }) := by
  have hf : s.sources.find? (fun src => src.uri == uri) = none :=
    List.find?_eq_none.mpr (fun x hx => by simpa using h x hx)
  simp [upsert_source, hf, freshSource]

theorem latest_revision_eq_none {s : Store} {sid : Nat}
    (h : ∀ r ∈ s.revisions, r.sourceId ≠ sid) : latest_revision s sid = none := by
  unfold latest_revision
  have hfil : s.revisions.filter (fun r => r.sourceId == sid) = [] :=
    List.filter_eq_nil_iff.mpr (fun r hr => by simpa using h r hr)
  rw [hfil]
  rfl

theorem skip_none (f : FileInfo) (sha : Option String) :
    change_detector_skip none f sha = false := rfl

/-- A fresh-uri ingestion with readable metadata always takes the write
path: insert a fresh source, no latest revision, no skip. -/
theorem ingest_fresh {s : Store} {f : FileInfo} {root : Option String} (now : String)
    (hstat : f.statOk = true)
    (hfresh : ∀ src ∈ s.sources, src.uri ≠ ingestUri f root)
    (hrse : RevSourcesExist s) :
    ingest_file s f root now =
      Except.ok (ingestWrite
        { s with sources := s.sources ++
            [freshSource s now (ingestUri f root) "file" root (some f.relPath) f.mime] }
        (nextSourceId s) f now) := by
  have hup := upsert_fresh now "file" root (some f.relPath) f.mime hfresh
  have hnone :
      latest_revision
        { s with sources := s.sources ++
            [freshSource s now (ingestUri f root) "file" root (some f.relPath) f.mime] }
        (nextSourceId s) = none := by
    apply latest_revision_eq_none
    intro r hr hEq
    obtain ⟨src, hsrc, hid⟩ := hrse r hr
    exact absurd (hid.trans hEq) (Nat.ne_of_lt (sourceId_lt_next hsrc))
  simp only [ingest_file, hstat, if_true, hup, hnone, skip_none, Bool.false_eq_true,
    if_false]

@[simp] theorem updCurrent_id (sourceId rid : Nat) (src : SourceRow) :
    (updCurrent sourceId rid src).id = src.id := by
  unfold updCurrent; split <;> rfl

@[simp] theorem updSourceFields_id (rowId : Nat) (sr rp mi : Option String) (src : SourceRow) :
    (updSourceFields rowId sr rp mi src).id = src.id := by
  unfold updSourceFields; split <;> rfl

@[simp] theorem updSourceFields_current (rowId : Nat) (sr rp mi : Option String)
    (src : SourceRow) :
    (updSourceFields rowId sr rp mi src).currentRevisionId = src.currentRevisionId := by
  unfold updSourceFields; split <;> rfl

theorem updCurrent_current_of_eq {sourceId : Nat} (rid : Nat) {src : SourceRow}
    (h : src.id = sourceId) : (updCurrent sourceId rid src).currentRevisionId = some rid := by
  simp [updCurrent, h]

theorem updCurrent_of_ne {sourceId : Nat} (rid : Nat) {src : SourceRow}
    (h : ¬ src.id = sourceId) : updCurrent sourceId rid src = src := by
  simp [updCurrent, h]

theorem upsert_source_inv {s : Store} (now uri t : String) (sr rp mi : Option String)
    (h : StoreInv s) :
    StoreInv (upsert_source s now uri t sr rp mi).2 ∧
      ∃ src ∈ (upsert_source s now uri t sr rp mi).2.sources,
        src.id = (upsert_source s now uri t sr rp mi).1 := by
  obtain ⟨hcil, hrse⟩ := h
  cases hf : s.sources.find? (fun src => src.uri == uri) with
  | some row =>
    have hrowmem : row ∈ s.sources := List.mem_of_find?_eq_some hf
    simp only [upsert_source, hf]
    refine ⟨⟨?_, ?_⟩, ?_⟩
    · intro src' hsrc' r hr hrs
      obtain ⟨src, hsrc, rfl⟩ := List.mem_map.mp hsrc'
      simp only [updSourceFields_id] at hrs
      obtain ⟨rc, hrc, h1, h2, h3⟩ := hcil src hsrc r hr hrs
      exact ⟨rc, hrc, by simpa using h1, by simpa using h2, h3⟩
    · intro r hr
      obtain ⟨src, hsrc, hid⟩ := hrse r hr
      exact ⟨updSourceFields row.id sr rp mi src, List.mem_map_of_mem _ hsrc, by simpa using hid⟩
    · exact ⟨updSourceFields row.id sr rp mi row, List.mem_map_of_mem _ hrowmem, by simp⟩
  | none =>
    simp only [upsert_source, hf]
    refine ⟨⟨?_, ?_⟩, ?_⟩
    · intro src' hsrc' r hr hrs
      rcases List.mem_append.mp hsrc' with hold | hnew
      · obtain ⟨rc, hrc, h1, h2, h3⟩ := hcil src' hold r hr hrs
        exact ⟨rc, hrc, h1, h2, h3⟩
      · obtain ⟨src0, hsrc0, hid0⟩ := hrse r hr
        have hlt := sourceId_lt_next hsrc0
        have : src'.id = nextSourceId s := by
          rcases List.mem_singleton.mp hnew with rfl
          rfl
        rw [this] at hrs
        exact absurd (hid0.trans hrs) (Nat.ne_of_lt hlt)
    · intro r hr
      obtain ⟨src, hsrc, hid⟩ := hrse r hr
      exact ⟨src, List.mem_append_left _ hsrc, hid⟩
    · refine ⟨_, List.mem_append_right _ (List.mem_singleton_self _), rfl⟩

theorem add_revision_and_doc_inv {s : Store} {sid : Nat} (f : FileInfo)
    (now title text enc ext : String) (meta : DocMeta) (status : String)
    (err sha : Option String) (cs : Bool)
    (h : StoreInv s) (hsid : ∃ src ∈ s.sources, src.id = sid) :
    StoreInv (add_revision_and_doc s f now sid title text enc ext meta status err sha cs) := by
  obtain ⟨hcil, hrse⟩ := h
  constructor
  · intro src' hsrc' r hr hrs
    simp only [add_revision_and_doc] at hsrc' hr ⊢
    obtain ⟨src, hsrc, rfl⟩ := List.mem_map.mp hsrc'
    by_cases hid : src.id = sid
    · refine ⟨newRevision s f now sid enc ext status err sha cs,
        List.mem_append_right _ (List.mem_singleton_self _), ?_, ?_, ?_⟩
      · simp [newRevision, updCurrent_id, hid]
      · exact updCurrent_current_of_eq _ hid
      · rcases List.mem_append.mp hr with hold | hnew
        · exact Nat.le_of_lt (revId_lt_next hold)
        · rcases List.mem_singleton.mp hnew with rfl
          exact Nat.le_refl _
    · rw [updCurrent_of_ne _ hid] at hrs ⊢
      rcases List.mem_append.mp hr with hold | hnew
      · obtain ⟨rc, hrc, h1, h2, h3⟩ := hcil src hsrc r hold hrs
        exact ⟨rc, List.mem_append_left _ hrc, h1, h2, h3⟩
      · rcases List.mem_singleton.mp hnew with rfl
        exact absurd (show src.id = sid from hrs.symm) hid
  · intro r hr
    simp only [add_revision_and_doc] at hr ⊢
    rcases List.mem_append.mp hr with hold | hnew
    · obtain ⟨src, hsrc, hid⟩ := hrse r hold
      exact ⟨updCurrent sid (nextRevId s) src, List.mem_map_of_mem _ hsrc, by simpa using hid⟩
    · rcases List.mem_singleton.mp hnew with rfl
      obtain ⟨src0, hsrc0, hid0⟩ := hsid
      exact ⟨updCurrent sid (nextRevId s) src0, List.mem_map_of_mem _ hsrc0, by simpa using hid0⟩

theorem ingestWrite_inv {s1 : Store} {sid : Nat} (f : FileInfo) (now : String)
    (h : StoreInv s1) (hsid : ∃ src ∈ s1.sources, src.id = sid) :
    StoreInv (ingestWrite s1 sid f now) := by
  unfold ingestWrite
  split
  · exact add_revision_and_doc_inv _ _ _ _ _ _ _ _ _ _ _ h hsid
  · cases f.extractResult with
    | ok text enc extractor => exact add_revision_and_doc_inv _ _ _ _ _ _ _ _ _ _ _ h hsid
    | err msg => exact add_revision_and_doc_inv _ _ _ _ _ _ _ _ _ _ _ h hsid

theorem ingest_file_inv {s s' : Store} {f : FileInfo} {root : Option String} {now : String}
    (h : StoreInv s) (hok : ingest_file s f root now = Except.ok s') : StoreInv s' := by
  unfold ingest_file at hok
  by_cases hstat : f.statOk
  · rw [if_pos hstat] at hok
    obtain ⟨hinv1, hsid⟩ := upsert_source_inv now (ingestUri f root) "file" root (some f.relPath)
      f.mime h
    by_cases hskip : change_detector_skip
        (latest_revision (upsert_source s now (ingestUri f root) "file" root (some f.relPath)
          f.mime).2
          (upsert_source s now (ingestUri f root) "file" root (some f.relPath) f.mime).1)
        f (ingestSha f) = true
    · rw [if_pos hskip] at hok
      cases hok
      exact hinv1
    · rw [if_neg hskip] at hok
      cases hok
      exact ingestWrite_inv f now hinv1 hsid
  · rw [if_neg hstat] at hok
    cases hok

theorem rebuild_timeline_inv {s : Store} (todayYear : Nat) (h : StoreInv s) :
    StoreInv (rebuild_timeline s todayYear) := h

theorem ingest_batch_inv {files : List FileInfo} {root : Option String} {now : String}
    {todayYear : Nat} :
    ∀ {s s' : Store}, StoreInv s → ingest_batch s files root now todayYear = Except.ok s' →
      StoreInv s' := by
  induction files with
  | nil =>
    intro s s' h hok
    unfold ingest_batch at hok
    cases hok
    exact rebuild_timeline_inv _ h
  | cons g rest ih =>
    intro s s' h hok
    unfold ingest_batch at hok
    cases hg : ingest_file s g root now with
    | ok s2 =>
      rw [hg] at hok
      exact ih (ingest_file_inv h hg) hok
    | error e =>
      rw [hg] at hok
      cases hok

theorem cmd_ingest_inv {s : Store} {files : List FileInfo} {root : Option String} {now : String}
    {todayYear : Nat} (h : StoreInv s) :
    StoreInv (cmd_ingest s files root now todayYear).1 := by
  unfold cmd_ingest
  cases hb : ingest_batch s files root now todayYear with
  | ok s2 => exact ingest_batch_inv h hb
  | error e => exact h

/-! ## Timeline lemmas -/

theorem emitForDoc_docId {y : Nat} {d : DocRow} {e : TimelineRow} (h : e ∈ emitForDoc y d) :
    e.docId = d.id := by
  unfold emitForDoc at h
  dsimp only at h
  rcases hrc : d.meta.receipt with _ | rc
  · rw [hrc] at h
    obtain ⟨ent, _, rfl⟩ := List.mem_map.mp h
    rfl
  · rw [hrc] at h
    dsimp only at h
    by_cases ht : truthyOpt rc.date = true
    · rw [if_pos ht] at h
      rcases List.mem_singleton.mp h with rfl
      rfl
    · rw [if_neg ht] at h
      obtain ⟨ent, _, rfl⟩ := List.mem_map.mp h
      rfl

theorem mem_numberFrom {n : Nat} {l : List TimelineRow} {e : TimelineRow}
    (h : e ∈ numberFrom n l) :
    ∃ e0 ∈ l, e.docId = e0.docId ∧ e.date = e0.date ∧ e.kind = e0.kind := by
  induction l generalizing n with
  | nil => cases h
  | cons a t ih =>
    rcases List.mem_cons.mp h with rfl | h2
    · exact ⟨a, List.mem_cons_self a t, rfl, rfl, rfl⟩
    · obtain ⟨e0, he0, hs⟩ := ih h2
      exact ⟨e0, List.mem_cons_of_mem _ he0, hs⟩

theorem numberFrom_mem {l : List TimelineRow} {e0 : TimelineRow} (h : e0 ∈ l) (n : Nat) :
    ∃ e ∈ numberFrom n l, e.docId = e0.docId ∧ e.date = e0.date ∧ e.kind = e0.kind := by
  induction l generalizing n with
  | nil => cases h
  | cons a t ih =>
    rcases List.mem_cons.mp h with rfl | h2
    · exact ⟨{ e0 with id := n }, List.mem_cons_self _ _, rfl, rfl, rfl⟩
    · obtain ⟨e, he, hs⟩ := ih h2 (n + 1)
      exact ⟨e, List.mem_cons_of_mem _ he, hs⟩

theorem docIsCurrentOk_spec {revs : List RevisionRow} {srcs : List SourceRow} {d : DocRow}
    (h : docIsCurrentOk revs srcs d = true) :
    ∃ r ∈ revs, r.id = d.revisionId ∧ r.status = "ok" ∧
      ∃ src ∈ srcs, src.currentRevisionId = some r.id := by
  unfold docIsCurrentOk at h
  obtain ⟨r, hr, hcond⟩ := List.any_eq_true.mp h
  simp only [Bool.and_eq_true, decide_eq_true_eq] at hcond
  obtain ⟨⟨h1, h2⟩, h3⟩ := hcond
  obtain ⟨src, hsrc, h4⟩ := List.any_eq_true.mp h3
  exact ⟨r, hr, h1, h2, src, hsrc, by simpa using h4⟩

theorem docIsCurrentOk_intro {revs : List RevisionRow} {srcs : List SourceRow} {d : DocRow}
    {r : RevisionRow} (hr : r ∈ revs) (h1 : r.id = d.revisionId) (h2 : r.status = "ok")
    {src : SourceRow} (hsrc : src ∈ srcs) (h3 : src.currentRevisionId = some r.id) :
    docIsCurrentOk revs srcs d = true := by
  unfold docIsCurrentOk
  refine List.any_eq_true.mpr ⟨r, hr, ?_⟩
  simp only [Bool.and_eq_true, decide_eq_true_eq]
  exact ⟨⟨h1, h2⟩, List.any_eq_true.mpr ⟨src, hsrc, by simp [h3]⟩⟩

theorem parse_diary_entries_empty (dy : Option Nat) (ty : Nat) :
    parse_diary_entries "" dy ty = [] := rfl

theorem emitForDoc_eq_nil {y : Nat} {d : DocRow} (ht : d.text = "")
    (hrc : d.meta.receipt = none) : emitForDoc y d = [] := by
  unfold emitForDoc
  rw [hrc, ht, parse_diary_entries_empty]
  rfl

/-! ## Write-path lemmas -/

@[simp] theorem updCurrent_uri (sourceId rid : Nat) (src : SourceRow) :
    (updCurrent sourceId rid src).uri = src.uri := by
  unfold updCurrent; split <;> rfl

theorem ingestWrite_revisions (s1 : Store) (sid : Nat) (f : FileInfo) (now : String) :
    ∃ r, (ingestWrite s1 sid f now).revisions = s1.revisions ++ [r] := by
  unfold ingestWrite
  split
  · exact ⟨_, rfl⟩
  · split <;> exact ⟨_, rfl⟩

theorem ingest_file_statFalse {f : FileInfo} (s : Store) (root : Option String) (now : String)
    (h : f.statOk = false) : ingest_file s f root now = Except.error () := by
  unfold ingest_file
  rw [h]
  rfl

theorem ingest_file_isOk {f : FileInfo} (s : Store) (root : Option String) (now : String)
    (h : f.statOk = true) : ∃ s', ingest_file s f root now = Except.ok s' := by
  unfold ingest_file
  rw [if_pos h]
  by_cases hc : change_detector_skip
      (latest_revision
        (upsert_source s now (ingestUri f root) "file" root (some f.relPath) f.mime).2
        (upsert_source s now (ingestUri f root) "file" root (some f.relPath) f.mime).1)
      f (ingestSha f) = true
  · rw [if_pos hc]; exact ⟨_, rfl⟩
  · rw [if_neg hc]; exact ⟨_, rfl⟩

theorem ingest_batch_error {files : List FileInfo} {f : FileInfo} (hf : f ∈ files)
    (hstat : f.statOk = false) :
    ∀ (s : Store) (root : Option String) (now : String) (y : Nat),
      ingest_batch s files root now y = Except.error () := by
  induction files with
  | nil => cases hf
  | cons g rest ih =>
    intro s root now y
    unfold ingest_batch
    rcases List.mem_cons.mp hf with rfl | h2
    · rw [ingest_file_statFalse s root now hstat]
    · cases hg : ingest_file s g root now with
      | ok s2 => exact ih h2 s2 root now y
      | error e => rfl

/-- The change-detector decision, characterized. -/
theorem skip_iff (latest : Option RevisionRow) (f : FileInfo) (sha : Option String) :
    change_detector_skip latest f sha = true ↔
      ∃ l, latest = some l ∧ l.size = f.size ∧ l.mtime = f.mtime ∧
        ¬(sha.isSome = true ∧ l.sha256 ≠ sha) ∧ ¬(sha = none ∧ l.sha256.isSome = true) ∧
        l.status = "ok" := by
  cases latest with
  | none =>
    constructor
    · intro h
      exact absurd h (by simp [change_detector_skip])
    · rintro ⟨l, hl, _⟩
      cases hl
  | some l =>
    constructor
    · intro h
      unfold change_detector_skip at h
      dsimp only at h
      split_ifs at h with h1 h2 h3
      simp only [Bool.and_eq_true, decide_eq_true_eq] at h1
      refine ⟨l, rfl, h1.1, h1.2, fun hc => ?_, fun hc => ?_, of_decide_eq_true h⟩
      · exact h2 (by simp only [Bool.and_eq_true, decide_eq_true_eq]; exact ⟨hc.1, hc.2⟩)
      · exact h3 (by rw [hc.1]; simpa using hc.2)
    · rintro ⟨l', hl', hsize, hmtime, hnomis, hnonull, hok⟩
      cases Option.some.inj hl'
      unfold change_detector_skip
      dsimp only
      split_ifs with h1 h2 h3
      · simp only [Bool.and_eq_true, decide_eq_true_eq] at h2
        exact absurd ⟨h2.1, h2.2⟩ hnomis
      · simp only [Bool.and_eq_true, Option.isNone_iff_eq_none] at h3
        exact absurd ⟨h3.1, h3.2⟩ hnonull
      · exact decide_eq_true hok
      · exact absurd (by simp only [Bool.and_eq_true, decide_eq_true_eq]; exact ⟨hsize, hmtime⟩)
          h1

theorem find?_append_of_forall_false {α : Type} (p : α → Bool) {l₁ : List α} (l₂ : List α)
    (h : ∀ x ∈ l₁, p x = false) : (l₁ ++ l₂).find? p = l₂.find? p := by
  induction l₁ with
  | nil => rfl
  | cons a t ih =>
    have ha := h a (List.mem_cons_self a t)
    rw [List.cons_append, List.find?_cons_of_neg _ (by simp [ha]),
      ih (fun x hx => h x (List.mem_cons_of_mem _ hx))]

theorem ingestWrite_symlink {f : FileInfo} (s1 : Store) (sid : Nat) (now : String)
    (hsym : f.isSymlink = true) :
    ingestWrite s1 sid f now =
      add_revision_and_doc s1 f now sid f.name "" "utf-8" "symlink" (symlinkMeta f)
        "ok" none none false := by
  simp [ingestWrite, hsym]

theorem ingestWrite_extract_ok {f : FileInfo} {text enc extractor : String} (s1 : Store)
    (sid : Nat) (now : String) (hsym : f.isSymlink = false)
    (hex : f.extractResult = ExtractOutcome.ok text enc extractor) :
    ingestWrite s1 sid f now =
      add_revision_and_doc s1 f now sid f.name text enc extractor (okMeta f text extractor)
        "ok" none (ingestSha f) true := by
  simp [ingestWrite, hsym, hex]

theorem ingestWrite_extract_err {f : FileInfo} {msg : String} (s1 : Store) (sid : Nat)
    (now : String) (hsym : f.isSymlink = false)
    (hex : f.extractResult = ExtractOutcome.err msg) :
    ingestWrite s1 sid f now =
      add_revision_and_doc s1 f now sid f.name "" "utf-8" "error" (errorMeta f)
        "error" (some msg) (ingestSha f) true := by
  simp [ingestWrite, hsym, hex]

/-- When the change detector does not skip, `ingest_file` takes the write
path. -/
theorem ingest_file_noskip {s : Store} {f : FileInfo} {root : Option String} {now : String}
    (hstat : f.statOk = true)
    (hnoskip : change_detector_skip
      (latest_revision
        (upsert_source s now (ingestUri f root) "file" root (some f.relPath) f.mime).2
        (upsert_source s now (ingestUri f root) "file" root (some f.relPath) f.mime).1)
      f (ingestSha f) = false) :
    ingest_file s f root now = Except.ok
      (ingestWrite
        (upsert_source s now (ingestUri f root) "file" root (some f.relPath) f.mime).2
        (upsert_source s now (ingestUri f root) "file" root (some f.relPath) f.mime).1
        f now) := by
  simp only [ingest_file, hstat, if_true, hnoskip, Bool.false_eq_true, if_false]

/-- When the change detector skips, `ingest_file` only upserts the source. -/
theorem ingest_file_skip (s : Store) {f : FileInfo} {root : Option String} (now : String)
    (hstat : f.statOk = true)
    (hskip : change_detector_skip
      (latest_revision
        (upsert_source s now (ingestUri f root) "file" root (some f.relPath) f.mime).2
        (upsert_source s now (ingestUri f root) "file" root (some f.relPath) f.mime).1)
      f (ingestSha f) = true) :
    ingest_file s f root now = Except.ok
      (upsert_source s now (ingestUri f root) "file" root (some f.relPath) f.mime).2 := by
  simp only [ingest_file, hstat, if_true, hskip, if_true]

@[simp] theorem add_revisions (s : Store) (f : FileInfo) (now : String) (sid : Nat)
    (title text enc ext : String) (meta : DocMeta) (status : String) (err sha : Option String)
    (cs : Bool) :
    (add_revision_and_doc s f now sid title text enc ext meta status err sha cs).revisions =
      s.revisions ++ [newRevision s f now sid enc ext status err sha cs] := rfl

@[simp] theorem add_docs (s : Store) (f : FileInfo) (now : String) (sid : Nat)
    (title text enc ext : String) (meta : DocMeta) (status : String) (err sha : Option String)
    (cs : Bool) :
    (add_revision_and_doc s f now sid title text enc ext meta status err sha cs).docs =
      s.docs ++ [newDoc s (nextRevId s) title text meta] := rfl

@[simp] theorem add_sources (s : Store) (f : FileInfo) (now : String) (sid : Nat)
    (title text enc ext : String) (meta : DocMeta) (status : String) (err sha : Option String)
    (cs : Bool) :
    (add_revision_and_doc s f now sid title text enc ext meta status err sha cs).sources =
      s.sources.map (updCurrent sid (nextRevId s)) := rfl

/-- With a supplied default year the segmenter never consults the
processing year. -/
theorem diaryStep_some_indep (dy ty : Nat) : diaryStep (some dy) ty = diaryStep (some dy) 0 := by
  funext st line
  unfold diaryStep
  cases h : matchDateLine line with
  | none => rfl
  | some tri =>
    obtain ⟨d, mo, yOpt⟩ := tri
    dsimp only
    cases yOpt <;> rfl

theorem parse_diary_some_indep (t : String) (dy ty : Nat) :
    parse_diary_entries t (some dy) ty = parse_diary_entries t (some dy) 0 := by
  unfold parse_diary_entries
  rw [diaryStep_some_indep]

/-! ## The claims -/

/-- C8: the diary segmenter applied to `"12.3.2020.\nHello\nWorld\n14.3.\nNext"`
with default year 2020 yields exactly the two entries
`(2020-03-12, "Hello", "Hello\nWorld")` and `(2020-03-14, "Next", "Next")`,
whatever the processing year is (the supplied default year makes it moot). -/
theorem c8_diary_example (todayYear : Nat) :
    parse_diary_entries "12.3.2020.\nHello\nWorld\n14.3.\nNext" (some 2020) todayYear =
      [⟨⟨2020, 3, 12⟩, "Hello", "Hello\nWorld"⟩, ⟨⟨2020, 3, 14⟩, "Next", "Next"⟩] := by
  rw [parse_diary_some_indep]
  decide

/-- C6: rebuilding the timeline is a pure function of the store's sources,
revisions and docs: a second consecutive `rebuild_timeline` (no intervening
ingestion) reproduces exactly the same store, and in particular a
byte-identical timeline-entry list. -/
theorem c6_rebuild_pure (s : Store) (todayYear : Nat) :
    rebuild_timeline (rebuild_timeline s todayYear) todayYear = rebuild_timeline s todayYear ∧
    (rebuild_timeline (rebuild_timeline s todayYear) todayYear).timeline =
      (rebuild_timeline s todayYear).timeline :=
  ⟨rfl, rfl⟩

/-- C3, counterexample: on `"1.3.2020.\nHello\n32.13.2020.\nWorld"` the
invalid token `32.13.2020.` does NOT leave the prior open entry unaffected:
the prior entry is flushed with body `"Hello"` and the following line
`"World"` is dropped, so the output differs from the claimed
`[(2020-03-01, "Hello", "Hello\nWorld")]`. -/
theorem c3_counterexample :
    parse_diary_entries "1.3.2020.\nHello\n32.13.2020.\nWorld" (some 2020) 2026 =
      [⟨⟨2020, 3, 1⟩, "Hello", "Hello"⟩] ∧
    parse_diary_entries "1.3.2020.\nHello\n32.13.2020.\nWorld" (some 2020) 2026 ≠
      [⟨⟨2020, 3, 1⟩, "Hello", "Hello\nWorld"⟩] := by
  decide

/-- C3, amended: a line matching the date-token pattern whose resolved
day/month/year is not a valid calendar date first flushes (closes) the
previously open entry and then leaves the segmenter with no open entry;
while no entry is open, subsequent non-trigger lines are dropped rather
than accumulated.  (No new entry is opened, but the prior open entry is
closed, not left open.) -/
theorem c3_amended_invalid_token_flushes :
    (∀ (dy : Option Nat) (ty : Nat) (st : DiaryState) (line : String) (d mo : Nat)
        (yOpt : Option Nat),
      matchDateLine line = some (d, mo, yOpt) →
      dateValid (resolveYear yOpt dy ty) mo d = false →
      diaryStep dy ty st line = { diaryFlush st with curDate := none }) ∧
    (∀ (dy : Option Nat) (ty : Nat) (st : DiaryState) (line : String),
      st.curDate = none → matchDateLine line = none → diaryStep dy ty st line = st) := by
  constructor
  · intro dy ty st line d mo yOpt hm hv
    unfold diaryStep
    rw [hm]
    dsimp only
    rw [hv]
    rfl
  · intro dy ty st line h0 hm
    unfold diaryStep
    rw [hm]
    dsimp only
    rw [h0]
    rfl

/-- Witness for the amended C3 at the concrete invalid token `32.13.2020.`
with an open entry holding the line `"Hello"`. -/
theorem c3_amended_witness :
    matchDateLine "32.13.2020." = some (32, 13, some 2020) ∧
    dateValid (resolveYear (some 2020) (some 2020) 2026) 13 32 = false ∧
    diaryStep (some 2020) 2026 ⟨some ⟨2020, 3, 1⟩, ["Hello"], []⟩ "32.13.2020." =
      { diaryFlush ⟨some ⟨2020, 3, 1⟩, ["Hello"], []⟩ with curDate := none } :=
  ⟨by decide, by decide,
    c3_amended_invalid_token_flushes.1 (some 2020) 2026 ⟨some ⟨2020, 3, 1⟩, ["Hello"], []⟩
      "32.13.2020." 32 13 (some 2020) (by decide) (by decide)⟩

/-- C9: the receipt total follows the precedence payable-keyword amount,
then total-keyword amount, then last currency-marked amount (each with the
comma normalized to a dot); in particular a text with both
`"Maksettava 12,50"` and `"Yhteensä 15,00"` yields `"12.50"`. -/
theorem c9_receipt_total_precedence :
    (∀ (j : String) (a : List Char), searchMaks j.data = some a →
      receiptTotal j = some (amountStr a)) ∧
    (∀ (j : String) (a : List Char), searchMaks j.data = none → searchYht j.data = some a →
      receiptTotal j = some (amountStr a)) ∧
    (∀ j : String, searchMaks j.data = none → searchYht j.data = none →
      receiptTotal j = ((eurFindAll j.data).getLast?).map amountStr) ∧
    (parse_receipt_fields "Maksettava 12,50\nYhteensä 15,00").total = some "12.50" := by
  refine ⟨?_, ?_, ?_, by decide⟩
  · intro j a h
    unfold receiptTotal
    rw [h]
  · intro j a h1 h2
    unfold receiptTotal
    rw [h1, h2]
  · intro j h1 h2
    unfold receiptTotal
    rw [h1, h2]

/-- Witness for C9 at the spec's example text: the payable keyword is found
first and decides the total. -/
theorem c9_witness :
    searchMaks "Maksettava 12,50\nYhteensä 15,00".data = some ['1', '2', ',', '5', '0'] ∧
    receiptTotal "Maksettava 12,50\nYhteensä 15,00" = some "12.50" :=
  ⟨by decide,
    c9_receipt_total_precedence.1 "Maksettava 12,50\nYhteensä 15,00" ['1', '2', ',', '5', '0']
      (by decide)⟩

/-- C1: the current-pointer invariant — every source's pointer names its
most recently written (maximal-id) revision, whatever that revision's
status — is preserved by `ingest_file` (which, whenever it writes a
revision, repoints the source at it), by `rebuild_timeline`, and by a whole
`cmd_ingest` batch. -/
theorem c1_current_pointer_invariant :
    (∀ (s s' : Store) (f : FileInfo) (root : Option String) (now : String),
      StoreInv s → ingest_file s f root now = Except.ok s' → StoreInv s') ∧
    (∀ (s : Store) (y : Nat), StoreInv s → StoreInv (rebuild_timeline s y)) ∧
    (∀ (s : Store) (files : List FileInfo) (root : Option String) (now : String) (y : Nat),
      StoreInv s → StoreInv (cmd_ingest s files root now y).1) :=
  ⟨fun _ _ _ _ _ h hok => ingest_file_inv h hok,
   fun _ y h => rebuild_timeline_inv y h,
   fun _ _ _ _ _ h => cmd_ingest_inv h⟩

/-- Witness for C1: the empty store satisfies the invariant and still does
after ingesting a concrete file. -/
theorem c1_witness :
    StoreInv exStore0 ∧ ingest_file exStore0 exFile none "T1" = Except.ok exStore1 ∧
    StoreInv exStore1 :=
  ⟨by unfold StoreInv CurrentIsLatest RevSourcesExist; decide,
   rfl,
   c1_current_pointer_invariant.1 exStore0 exStore1 exFile none "T1"
     (by unfold StoreInv CurrentIsLatest RevSourcesExist; decide) rfl⟩

theorem ingest_batch_isOk {files : List FileInfo} (hall : ∀ f ∈ files, f.statOk = true) :
    ∀ (s : Store) (root : Option String) (now : String) (y : Nat),
      ∃ s', ingest_batch s files root now y = Except.ok s' := by
  induction files with
  | nil =>
    intro s root now y
    exact ⟨_, rfl⟩
  | cons g rest ih =>
    intro s root now y
    obtain ⟨s2, hs2⟩ := ingest_file_isOk s root now (hall g (List.mem_cons_self g rest))
    obtain ⟨s3, hs3⟩ := ih (fun f hf => hall f (List.mem_cons_of_mem _ hf)) s2 root now y
    refine ⟨s3, ?_⟩
    unfold ingest_batch
    rw [hs2]
    exact hs3

/-- C4 (amended): an exception inside extraction/parsing is contained — it
is persisted as an `error`-status revision with the message recorded and an
empty doc text, and a batch whose files all stat successfully always
commits; but a stat failure is NOT contained: it propagates out of
`ingest_file` and aborts the entire batch transaction (the store rolls back
to its pre-batch state and the remaining files are not processed), instead
of skipping only the unreadable file. -/
theorem c4_error_containment :
    (∀ (s : Store) (f : FileInfo) (root : Option String) (now msg : String),
      f.statOk = true → f.isSymlink = false → f.extractResult = ExtractOutcome.err msg →
      change_detector_skip
        (latest_revision
          (upsert_source s now (ingestUri f root) "file" root (some f.relPath) f.mime).2
          (upsert_source s now (ingestUri f root) "file" root (some f.relPath) f.mime).1)
        f (ingestSha f) = false →
      ∃ s' r d, ingest_file s f root now = Except.ok s' ∧
        s'.revisions = s.revisions ++ [r] ∧ r.status = "error" ∧ r.error = some msg ∧
        s'.docs = s.docs ++ [d] ∧ d.revisionId = r.id ∧ d.text = "") ∧
    (∀ (s : Store) (files : List FileInfo) (root : Option String) (now : String) (y : Nat),
      (∀ f ∈ files, f.statOk = true) →
      ∃ s', ingest_batch s files root now y = Except.ok s') ∧
    (∀ (s : Store) (files : List FileInfo) (root : Option String) (now : String) (y : Nat)
        (f : FileInfo), f ∈ files → f.statOk = false →
      cmd_ingest s files root now y = (s, false)) := by
  refine ⟨?_, ?_, ?_⟩
  · intro s f root now msg hstat hsym hex hnoskip
    have hok := ingest_file_noskip hstat hnoskip
    rw [ingestWrite_extract_err _ _ now hsym hex] at hok
    refine ⟨_,
      newRevision (upsert_source s now (ingestUri f root) "file" root (some f.relPath) f.mime).2
        f now (upsert_source s now (ingestUri f root) "file" root (some f.relPath) f.mime).1
        "utf-8" "error" "error" (some msg) (ingestSha f) true,
      newDoc (upsert_source s now (ingestUri f root) "file" root (some f.relPath) f.mime).2
        (nextRevId
          (upsert_source s now (ingestUri f root) "file" root (some f.relPath) f.mime).2)
        f.name "" (errorMeta f),
      hok, ?_, rfl, rfl, ?_, rfl, rfl⟩
    · rw [add_revisions, upsert_revisions]
    · rw [add_docs, upsert_docs]
  · intro s files root now y hall
    exact ingest_batch_isOk hall s root now y
  · intro s files root now y f hf hstat
    unfold cmd_ingest
    rw [ingest_batch_error hf hstat s root now y]

/-- C4, counterexample to the claim as stated: a batch `[bad, good]` whose
first file's stat fails is rolled back whole — the good file is not
recorded either — although the good file alone would have produced a
revision. -/
theorem c4_counterexample :
    cmd_ingest exStore0 [exBadFile, exFile] none "T" 2026 = (exStore0, false) ∧
    (cmd_ingest exStore0 [exBadFile, exFile] none "T" 2026).1.revisions.length = 0 ∧
    (cmd_ingest exStore0 [exFile] none "T" 2026).1.revisions.length = 1 := by
  decide

/-- Witness for the amended C4: a concrete extraction failure is persisted
as an error revision with empty doc text. -/
theorem c4_witness :
    ∃ s' r d, ingest_file exStore0 exErrFile none "T" = Except.ok s' ∧
      s'.revisions = exStore0.revisions ++ [r] ∧ r.status = "error" ∧
      r.error = some "pypdf puuttuu (pip install pypdf)" ∧
      s'.docs = exStore0.docs ++ [d] ∧ d.revisionId = r.id ∧ d.text = "" :=
  c4_error_containment.1 exStore0 exErrFile none "T" "pypdf puuttuu (pip install pypdf)"
    (by decide) (by decide) (by decide) (by decide)

/-- C5: derived read views expose only current, successful revisions —
every rebuilt timeline entry's doc belongs to some source's current
revision with status `ok`, and every search result's doc does too. -/
theorem c5_views_only_current_ok :
    (∀ (s : Store) (y : Nat) (e : TimelineRow), e ∈ (rebuild_timeline s y).timeline →
      ∃ d ∈ s.docs, e.docId = d.id ∧
        ∃ r ∈ s.revisions, r.id = d.revisionId ∧ r.status = "ok" ∧
          ∃ src ∈ s.sources, src.currentRevisionId = some r.id) ∧
    (∀ (s : Store) (q : String → String → Bool) (n : Nat) (d : DocRow),
      d ∈ cmd_search s q n →
      ∃ r ∈ s.revisions, r.id = d.revisionId ∧ r.status = "ok" ∧
        ∃ src ∈ s.sources, src.currentRevisionId = some r.id) := by
  constructor
  · intro s y e he
    have he2 : e ∈ computeTimeline s.docs s.revisions s.sources y := he
    unfold computeTimeline at he2
    obtain ⟨e0, he0, hdoc, _, _⟩ := mem_numberFrom he2
    obtain ⟨d, hd, hed⟩ := List.mem_flatMap.mp he0
    obtain ⟨hmem, hpred⟩ := List.mem_filter.mp hd
    obtain ⟨r, hr, h1, h2, src, hsrc, h3⟩ := docIsCurrentOk_spec hpred
    exact ⟨d, hmem, hdoc.trans (emitForDoc_docId hed), r, hr, h1, h2, src, hsrc, h3⟩
  · intro s q n d hd
    have hd2 : d ∈ s.docs.filter
        (fun d => q d.title d.text && docIsCurrentOk s.revisions s.sources d) :=
      List.take_subset _ _ hd
    obtain ⟨hmem, hpred⟩ := List.mem_filter.mp hd2
    simp only [Bool.and_eq_true] at hpred
    obtain ⟨r, hr, h1, h2, src, hsrc, h3⟩ := docIsCurrentOk_spec hpred.2
    exact ⟨r, hr, h1, h2, src, hsrc, h3⟩

/-- Witness for C5 on the concrete ingested store: the first timeline entry
and a concrete search result both trace back to a current `ok` revision. -/
theorem c5_witness :
    (∃ d ∈ exStore1.docs, exEntry.docId = d.id ∧
      ∃ r ∈ exStore1.revisions, r.id = d.revisionId ∧ r.status = "ok" ∧
        ∃ src ∈ exStore1.sources, src.currentRevisionId = some r.id) ∧
    (∃ r ∈ exStore1.revisions, r.id = exDoc1.revisionId ∧ r.status = "ok" ∧
      ∃ src ∈ exStore1.sources, src.currentRevisionId = some r.id) :=
  ⟨c5_views_only_current_ok.1 exStore1 2026 exEntry (by decide),
   c5_views_only_current_ok.2 exStore1 exQuery 20 exDoc1 (by decide)⟩

theorem upsert_nextDocId (s : Store) (now uri t : String) (sr rp mi : Option String) :
    nextDocId (upsert_source s now uri t sr rp mi).2 = nextDocId s := by
  unfold nextDocId maxDocId
  rw [upsert_docs]

theorem upsert_nextRevId (s : Store) (now uri t : String) (sr rp mi : Option String) :
    nextRevId (upsert_source s now uri t sr rp mi).2 = nextRevId s := by
  unfold nextRevId maxRevId
  rw [upsert_revisions]

/-- C7: a symbolic link is ingested without consulting the extraction
dispatcher (the result does not depend on the extraction outcome at all),
and when a revision is written it has empty doc text, extractor identity
`symlink`, a null fingerprint, status `ok`, and the link target recorded in
the doc's structured metadata; the resulting doc contributes no entries to
any subsequent timeline rebuild. -/
theorem c7_symlink_ingestion :
    (∀ (s : Store) (f : FileInfo) (er : ExtractOutcome) (root : Option String) (now : String),
      f.isSymlink = true →
      ingest_file s { f with extractResult := er } root now = ingest_file s f root now) ∧
    (∀ (s : Store) (f : FileInfo) (root : Option String) (now : String),
      f.isSymlink = true → f.statOk = true →
      change_detector_skip
        (latest_revision
          (upsert_source s now (ingestUri f root) "file" root (some f.relPath) f.mime).2
          (upsert_source s now (ingestUri f root) "file" root (some f.relPath) f.mime).1)
        f (ingestSha f) = false →
      ∃ s' r d, ingest_file s f root now = Except.ok s' ∧
        s'.revisions = s.revisions ++ [r] ∧ r.extractor = "symlink" ∧ r.sha256 = none ∧
        r.status = "ok" ∧ s'.docs = s.docs ++ [d] ∧ d.revisionId = r.id ∧ d.text = "" ∧
        d.meta.symlinkTarget = some f.linkTarget ∧
        (∀ (y : Nat) (e : TimelineRow), e ∈ (rebuild_timeline s' y).timeline →
          e.docId ≠ d.id)) := by
  constructor
  · intro s f er root now hsym
    obtain ⟨name, pathStr, relPath, mime, isSymlink, statOk, size, mtime, sha, linkTarget, ex⟩ := f
    cases hsym
    cases statOk <;> rfl
  · intro s f root now hsym hstat hnoskip
    have hok := ingest_file_noskip hstat hnoskip
    rw [ingestWrite_symlink _ _ now hsym] at hok
    refine ⟨_,
      newRevision
        (upsert_source s now (ingestUri f root) "file" root (some f.relPath) f.mime).2
        f now (upsert_source s now (ingestUri f root) "file" root (some f.relPath) f.mime).1
        "utf-8" "symlink" "ok" none none false,
      newDoc (upsert_source s now (ingestUri f root) "file" root (some f.relPath) f.mime).2
        (nextRevId
          (upsert_source s now (ingestUri f root) "file" root (some f.relPath) f.mime).2)
        f.name "" (symlinkMeta f),
      hok, ?_, rfl, rfl, rfl, ?_, rfl, rfl, rfl, ?_⟩
    · rw [add_revisions, upsert_revisions]
    · rw [add_docs, upsert_docs]
    · intro y e he
      set u := upsert_source s now (ingestUri f root) "file" root (some f.relPath) f.mime
        with hu
      set sW := add_revision_and_doc u.2 f now u.1 f.name "" "utf-8" "symlink" (symlinkMeta f)
        "ok" none none false with hsW
      have he2 : e ∈ computeTimeline sW.docs sW.revisions sW.sources y := he
      unfold computeTimeline at he2
      obtain ⟨e0, he0, hdocId, _, _⟩ := mem_numberFrom he2
      obtain ⟨d2, hd2, hed⟩ := List.mem_flatMap.mp he0
      have hd2mem : d2 ∈ sW.docs := (List.mem_filter.mp hd2).1
      rw [hsW, add_docs] at hd2mem
      rcases List.mem_append.mp hd2mem with hold | hnew
      · rw [upsert_docs] at hold
        have hlt : d2.id < nextDocId s := docId_lt_next hold
        have hnd : (newDoc u.2 (nextRevId u.2) f.name "" (symlinkMeta f)).id = nextDocId s := by
          show nextDocId u.2 = nextDocId s
          rw [hu]
          exact upsert_nextDocId s now (ingestUri f root) "file" root (some f.relPath) f.mime
        rw [hdocId, emitForDoc_docId hed, hnd]
        exact Nat.ne_of_lt hlt
      · rcases List.mem_singleton.mp hnew with rfl
        have hnil : emitForDoc y (newDoc u.2 (nextRevId u.2) f.name "" (symlinkMeta f)) = [] :=
          emitForDoc_eq_nil rfl rfl
        rw [hnil] at hed
        cases hed

/-- Witness for C7: ingesting a concrete symbolic link. -/
theorem c7_witness :
    (ingest_file exStore0 { exLinkFile with extractResult := ExtractOutcome.err "other" }
        none "T" = ingest_file exStore0 exLinkFile none "T") ∧
    (∃ s' r d, ingest_file exStore0 exLinkFile none "T" = Except.ok s' ∧
      s'.revisions = exStore0.revisions ++ [r] ∧ r.extractor = "symlink" ∧ r.sha256 = none ∧
      r.status = "ok" ∧ s'.docs = exStore0.docs ++ [d] ∧ d.revisionId = r.id ∧ d.text = "" ∧
      d.meta.symlinkTarget = some exLinkFile.linkTarget ∧
      (∀ (y : Nat) (e : TimelineRow), e ∈ (rebuild_timeline s' y).timeline →
        e.docId ≠ d.id)) :=
  ⟨c7_symlink_ingestion.1 exStore0 exLinkFile (ExtractOutcome.err "other") none "T" (by decide),
   c7_symlink_ingestion.2 exStore0 exLinkFile none "T" (by decide) (by decide) (by decide)⟩

theorem natDigits_ne_nil (fuel n : Nat) : natDigits (fuel + 1) n ≠ [] := by
  unfold natDigits
  split
  · simp
  · simp

theorem natToStr_data_ne_nil (n : Nat) : (natToStr n).data ≠ [] :=
  natDigits_ne_nil 19 n

theorem pad4_data_ne_nil (n : Nat) : (pad4 n).data ≠ [] := by
  unfold pad4
  split_ifs <;>
    first
    | exact natToStr_data_ne_nil n
    | (rw [String.data_append]
       intro h
       exact natToStr_data_ne_nil n (List.append_eq_nil.mp h).2)

theorem filename_date_fallback_ne_empty {name ds : String}
    (h : filename_date_fallback name = some ds) : ds ≠ "" := by
  unfold filename_date_fallback at h
  obtain ⟨t, _, hg⟩ := Option.map_eq_some'.mp h
  intro hc
  rw [← hg] at hc
  have hdata := congrArg String.data hc
  rw [String.data_append, String.data_append, String.data_append, String.data_append] at hdata
  have h1 := (List.append_eq_nil.mp hdata).1
  have h2 := (List.append_eq_nil.mp h1).1
  have h3 := (List.append_eq_nil.mp h2).1
  have h4 := (List.append_eq_nil.mp h3).1
  exact pad4_data_ne_nil t.1 h4

@[simp] theorem freshSource_id (s : Store) (now uri t : String) (sr rp mi : Option String) :
    (freshSource s now uri t sr rp mi).id = nextSourceId s := rfl

@[simp] theorem freshSource_uri (s : Store) (now uri t : String) (sr rp mi : Option String) :
    (freshSource s now uri t sr rp mi).uri = uri := rfl

theorem emitForDoc_receipt {y : Nat} {d : DocRow} {rc : ReceiptFields}
    (hrc : d.meta.receipt = some rc) (ht : truthyOpt rc.date = true) :
    emitForDoc y d =
      [{ id := 0, docId := d.id, date := rc.date.getD "", kind := "receipt", title := d.title,
         snippet := strTake (pyShowOpt rc.merchant ++ " total " ++ pyShowOpt rc.total) 300,
         meta := some rc }] := by
  unfold emitForDoc
  rw [hrc]
  dsimp only
  rw [if_pos ht]

/-- C10: when a receipt-classified file's text yields no parsed date, a
`(19|20)YY-MM-DD`-shaped digit group in the file name (with `-`, `_` or `.`
separators) is stored as the receipt date with no calendar validation —
month 13, day 45 are accepted — and that unvalidated date makes the doc
emit a `receipt` timeline entry on rebuild. -/
theorem c10_filename_date_unvalidated :
    (filename_date_fallback "kuitti-2020-13-45.jpg" = some "2020-13-45" ∧
      dateValid 2020 13 45 = false) ∧
    (∀ (s : Store) (f : FileInfo) (root : Option String) (now : String)
        (text enc extractor ds : String),
      f.statOk = true → f.isSymlink = false →
      f.extractResult = ExtractOutcome.ok text enc extractor →
      looksLikeReceipt f extractor = true →
      truthyOpt (parse_receipt_fields text).date = false →
      filename_date_fallback f.name = some ds →
      (∀ src ∈ s.sources, src.uri ≠ ingestUri f root) → RevSourcesExist s →
      ∃ s' d rc, ingest_file s f root now = Except.ok s' ∧
        s'.docs = s.docs ++ [d] ∧ d.meta.receipt = some rc ∧ rc.date = some ds ∧
        (∀ y : Nat, ∃ e ∈ (rebuild_timeline s' y).timeline,
          e.docId = d.id ∧ e.kind = "receipt" ∧ e.date = ds)) := by
  refine ⟨⟨by decide, by decide⟩, ?_⟩
  intro s f root now text enc extractor ds hstat hsym hex hlooks hnodate hfn hfresh hrse
  have hok := ingest_fresh now hstat hfresh hrse
  rw [ingestWrite_extract_ok _ _ now hsym hex] at hok
  have hds : ds ≠ "" := filename_date_fallback_ne_empty hfn
  have hmeta : okMeta f text extractor =
      { plainMeta f extractor with
        receipt := some (receiptMetaFix (parse_receipt_fields text) f.name) } := by
    simp [okMeta, hlooks]
  have hrcdate : (receiptMetaFix (parse_receipt_fields text) f.name).date = some ds := by
    simp [receiptMetaFix, hnodate, hfn]
  set s1 : Store :=
    { s with sources := s.sources ++
        [freshSource s now (ingestUri f root) "file" root (some f.relPath) f.mime] } with hs1
  set rc := receiptMetaFix (parse_receipt_fields text) f.name with hrc
  set d := newDoc s1 (nextRevId s1) f.name text (okMeta f text extractor) with hd
  refine ⟨_, d, rc, hok, rfl, ?_, hrcdate, ?_⟩
  · show (okMeta f text extractor).receipt = some rc
    rw [hmeta]
  · intro y
    set r := newRevision s1 f now (nextSourceId s) enc extractor "ok" none (ingestSha f) true
      with hr
    set sW := add_revision_and_doc s1 f now (nextSourceId s) f.name text enc extractor
      (okMeta f text extractor) "ok" none (ingestSha f) true with hsW
    have hrmem : r ∈ sW.revisions := by
      rw [hsW, add_revisions]
      exact List.mem_append_right _ (List.mem_singleton_self _)
    have hsrcmem : updCurrent (nextSourceId s) (nextRevId s1)
        (freshSource s now (ingestUri f root) "file" root (some f.relPath) f.mime) ∈
        sW.sources := by
      rw [hsW, add_sources]
      exact List.mem_map_of_mem _ (List.mem_append_right _ (List.mem_singleton_self _))
    have hco : docIsCurrentOk sW.revisions sW.sources d = true :=
      docIsCurrentOk_intro hrmem rfl rfl hsrcmem (updCurrent_current_of_eq _ rfl)
    have hdmem : d ∈ sW.docs := by
      rw [hsW, add_docs]
      exact List.mem_append_right _ (List.mem_singleton_self _)
    have hdfil : d ∈ sW.docs.filter (docIsCurrentOk sW.revisions sW.sources) :=
      List.mem_filter.mpr ⟨hdmem, hco⟩
    have hdrc : d.meta.receipt = some rc := by
      show (okMeta f text extractor).receipt = some rc
      rw [hmeta]
    have htr : truthyOpt rc.date = true := by
      rw [hrcdate]
      simpa [truthyOpt] using hds
    obtain ⟨e0, he0mem, he0props⟩ :
        ∃ e0 ∈ emitForDoc y d, e0.docId = d.id ∧ e0.kind = "receipt" ∧ e0.date = ds := by
      rw [emitForDoc_receipt hdrc htr]
      refine ⟨_, List.mem_singleton_self _, rfl, rfl, ?_⟩
      show rc.date.getD "" = ds
      rw [hrcdate]
      rfl
    have he0fl : e0 ∈
        (sW.docs.filter (docIsCurrentOk sW.revisions sW.sources)).flatMap (emitForDoc y) :=
      List.mem_flatMap.mpr ⟨d, hdfil, he0mem⟩
    obtain ⟨e, he, hdocId, hdate, hkind⟩ := numberFrom_mem he0fl 1
    exact ⟨e, he, by rw [hdocId, he0props.1], by rw [hkind, he0props.2.1],
      by rw [hdate, he0props.2.2]⟩

/-- Witness for C10: a concrete OCR receipt named `kuitti-2020-13-45.jpg`
whose text has no date gets the invalid filename date `2020-13-45` and a
`receipt` timeline entry. -/
theorem c10_witness :
    ∃ s' d rc, ingest_file exStore0 exKuittiFile none "T" = Except.ok s' ∧
      s'.docs = exStore0.docs ++ [d] ∧ d.meta.receipt = some rc ∧
      rc.date = some "2020-13-45" ∧
      (∀ y : Nat, ∃ e ∈ (rebuild_timeline s' y).timeline,
        e.docId = d.id ∧ e.kind = "receipt" ∧ e.date = "2020-13-45") :=
  c10_filename_date_unvalidated.2 exStore0 exKuittiFile none "T" "no date here" "utf-8" "ocr"
    "2020-13-45" (by decide) (by decide) (by decide) (by decide) (by decide) (by decide)
    (by decide) (by unfold RevSourcesExist; decide)

theorem latest_revision_eq_single {s2 : Store} {sid : Nat} {r : RevisionRow}
    (pre : List RevisionRow) (he : s2.revisions = pre ++ [r])
    (hall : ∀ x ∈ pre, x.sourceId ≠ sid) (hr : r.sourceId = sid) :
    latest_revision s2 sid = some r := by
  unfold latest_revision
  rw [he, List.filter_append]
  have h1 : pre.filter (fun x => x.sourceId == sid) = [] :=
    List.filter_eq_nil_iff.mpr (fun x hx => by simpa using hall x hx)
  have h2 : [r].filter (fun x => x.sourceId == sid) = [r] := by simp [hr]
  rw [h1, h2]
  rfl

/-- Ingesting an unchanged, successfully extracted file twice: the first
pass writes exactly one `ok` revision, the second is skipped by the change
detector and writes none. -/
theorem two_ingests_unchanged {s : Store} {f : FileInfo} {root : Option String}
    (now1 now2 : String) {text enc extractor : String}
    (hstat : f.statOk = true) (hsym : f.isSymlink = false)
    (hex : f.extractResult = ExtractOutcome.ok text enc extractor)
    (hfresh : ∀ src ∈ s.sources, src.uri ≠ ingestUri f root)
    (hrse : RevSourcesExist s) :
    ∃ s1 s2, ingest_file s f root now1 = Except.ok s1 ∧
      s1.revisions.length = s.revisions.length + 1 ∧
      (∃ r, s1.revisions = s.revisions ++ [r] ∧ r.status = "ok") ∧
      ingest_file s1 f root now2 = Except.ok s2 ∧ s2.revisions = s1.revisions := by
  have hok := ingest_fresh now1 hstat hfresh hrse
  rw [ingestWrite_extract_ok _ _ now1 hsym hex] at hok
  set fr := freshSource s now1 (ingestUri f root) "file" root (some f.relPath) f.mime with hfr
  set s1 : Store := { s with sources := s.sources ++ [fr] } with hs1
  set sA := add_revision_and_doc s1 f now1 (nextSourceId s) f.name text enc extractor
    (okMeta f text extractor) "ok" none (ingestSha f) true with hsA
  set rev := newRevision s1 f now1 (nextSourceId s) enc extractor "ok" none (ingestSha f) true
    with hrev
  have hArev : sA.revisions = s.revisions ++ [rev] := by
    rw [hsA, add_revisions, ← hrev, hs1]
  have hlen : sA.revisions.length = s.revisions.length + 1 := by
    rw [hArev, List.length_append]
    rfl
  have hmap : sA.sources = s.sources.map (updCurrent (nextSourceId s) (nextRevId s1)) ++
      [updCurrent (nextSourceId s) (nextRevId s1) fr] := by
    rw [hsA, add_sources, hs1]
    show (s.sources ++ [fr]).map _ = _
    rw [List.map_append]
    rfl
  have hfind : sA.sources.find? (fun src => src.uri == ingestUri f root) =
      some (updCurrent (nextSourceId s) (nextRevId s1) fr) := by
    rw [hmap, find?_append_of_forall_false _ _ ?hall]
    case hall =>
      intro x hx
      obtain ⟨src, hsrc, rfl⟩ := List.mem_map.mp hx
      simp only [updCurrent_uri, beq_eq_false_iff_ne, ne_eq]
      exact hfresh src hsrc
    exact List.find?_cons_of_pos _ (by simp [hfr])
  have hsid2 : (updCurrent (nextSourceId s) (nextRevId s1) fr).id = nextSourceId s := by
    rw [updCurrent_id, hfr, freshSource_id]
  have hup2 : upsert_source sA now2 (ingestUri f root) "file" root (some f.relPath) f.mime =
      ((updCurrent (nextSourceId s) (nextRevId s1) fr).id,
        { sA with sources := sA.sources.map (updSourceFields (updCurrent (nextSourceId s) (nextRevId s1) fr).id root (some f.relPath) f.mime) }) := by
    simp only [upsert_source, hfind]
  have hlatest : latest_revision
      (upsert_source sA now2 (ingestUri f root) "file" root (some f.relPath) f.mime).2
      (upsert_source sA now2 (ingestUri f root) "file" root (some f.relPath) f.mime).1 =
      some rev := by
    rw [hup2]
    refine latest_revision_eq_single s.revisions hArev ?_ ?_
    · intro x hx hEq
      rw [hsid2] at hEq
      obtain ⟨src, hsrc, hid⟩ := hrse x hx
      exact absurd (hid.trans hEq) (Nat.ne_of_lt (sourceId_lt_next hsrc))
    · rw [hsid2, hrev]
      rfl
  have hskip2 : change_detector_skip
      (latest_revision
        (upsert_source sA now2 (ingestUri f root) "file" root (some f.relPath) f.mime).2
        (upsert_source sA now2 (ingestUri f root) "file" root (some f.relPath) f.mime).1)
      f (ingestSha f) = true := by
    rw [hlatest]
    refine (skip_iff _ f (ingestSha f)).mpr ⟨rev, rfl, rfl, rfl, ?_, ?_, rfl⟩
    · rintro ⟨_, hne⟩
      exact hne (by rw [hrev]; simp [newRevision, ingestSha, hsym])
    · rintro ⟨hc, _⟩
      rw [ingestSha, hsym] at hc
      simp at hc
  have hsecond := ingest_file_skip sA now2 hstat hskip2
  exact ⟨sA,
    (upsert_source sA now2 (ingestUri f root) "file" root (some f.relPath) f.mime).2,
    hok, hlen, ⟨rev, hArev, rfl⟩, hsecond,
    upsert_revisions sA now2 (ingestUri f root) "file" root (some f.relPath) f.mime⟩

/-- C2: ingesting the same unchanged file twice writes exactly one `ok`
revision on the first pass and none on the second; the change-detector
skip happens exactly when a latest revision exists whose size and mtime
match, whose fingerprint does not mismatch (in either nullability
direction), and whose status is `ok` — absence of a prior revision or a
prior `error` status forces a write; and every non-erroring ingestion
either skips (leaving the revision table unchanged) or appends exactly one
revision. -/
theorem c2_change_detector_idempotence :
    (∀ (s : Store) (f : FileInfo) (root : Option String) (now1 now2 : String)
        (text enc extractor : String),
      f.statOk = true → f.isSymlink = false →
      f.extractResult = ExtractOutcome.ok text enc extractor →
      (∀ src ∈ s.sources, src.uri ≠ ingestUri f root) → RevSourcesExist s →
      ∃ s1 s2, ingest_file s f root now1 = Except.ok s1 ∧
        s1.revisions.length = s.revisions.length + 1 ∧
        (∃ r, s1.revisions = s.revisions ++ [r] ∧ r.status = "ok") ∧
        ingest_file s1 f root now2 = Except.ok s2 ∧ s2.revisions = s1.revisions) ∧
    (∀ (latest : Option RevisionRow) (f : FileInfo) (sha : Option String),
      change_detector_skip latest f sha = true ↔
        ∃ l, latest = some l ∧ l.size = f.size ∧ l.mtime = f.mtime ∧
          ¬(sha.isSome = true ∧ l.sha256 ≠ sha) ∧ ¬(sha = none ∧ l.sha256.isSome = true) ∧
          l.status = "ok") ∧
    (∀ (s : Store) (f : FileInfo) (root : Option String) (now : String) (s' : Store),
      f.statOk = true → ingest_file s f root now = Except.ok s' →
      (change_detector_skip
          (latest_revision
            (upsert_source s now (ingestUri f root) "file" root (some f.relPath) f.mime).2
            (upsert_source s now (ingestUri f root) "file" root (some f.relPath) f.mime).1)
          f (ingestSha f) = true → s'.revisions = s.revisions) ∧
      (change_detector_skip
          (latest_revision
            (upsert_source s now (ingestUri f root) "file" root (some f.relPath) f.mime).2
            (upsert_source s now (ingestUri f root) "file" root (some f.relPath) f.mime).1)
          f (ingestSha f) = false → ∃ r, s'.revisions = s.revisions ++ [r])) := by
  refine ⟨?_, skip_iff, ?_⟩
  · intro s f root now1 now2 text enc extractor hstat hsym hex hfresh hrse
    exact two_ingests_unchanged now1 now2 hstat hsym hex hfresh hrse
  · intro s f root now s' hstat hok
    constructor
    · intro hskip
      rw [ingest_file_skip s now hstat hskip] at hok
      cases Except.ok.inj hok
      exact upsert_revisions s now (ingestUri f root) "file" root (some f.relPath) f.mime
    · intro hns
      rw [ingest_file_noskip hstat hns] at hok
      cases Except.ok.inj hok
      obtain ⟨r, hr⟩ := ingestWrite_revisions
        (upsert_source s now (ingestUri f root) "file" root (some f.relPath) f.mime).2
        (upsert_source s now (ingestUri f root) "file" root (some f.relPath) f.mime).1 f now
      refine ⟨r, ?_⟩
      rw [hr, upsert_revisions]

/-- Witness for C2: the concrete diary file ingested twice into the empty
store — one revision after the first pass, none added by the second. -/
theorem c2_witness :
    ∃ s1 s2, ingest_file exStore0 exFile none "T1" = Except.ok s1 ∧
      s1.revisions.length = exStore0.revisions.length + 1 ∧
      (∃ r, s1.revisions = exStore0.revisions ++ [r] ∧ r.status = "ok") ∧
      ingest_file s1 exFile none "T2" = Except.ok s2 ∧ s2.revisions = s1.revisions :=
  c2_change_detector_idempotence.1 exStore0 exFile none "T1" "T2"
    "12.3.2020.\nHello\nWorld\n14.3.\nNext" "utf-8" "txt" (by decide) (by decide) (by decide)
    (by decide) (by unfold RevSourcesExist; decide)

end Aeternitas
